import Mathlib

/-!
# BasicShell: process lifecycle and status reporting

A shallow embedding of the parts of `signal_proc.c`, `builtins.c` and `main.c`
that track background children, record termination statuses and dispatch
non-builtin commands.  Everything the C code prints or asks of the operating
system is recorded, in order, as a list of `Effect`s; what the operating system
answers is passed in as an argument.
-/

namespace BasicShell

/-! ## Constants and data model -/

/-- Maximum number of background processes (`NUM_BACKGROUND_PIDS`, signal_proc.h). -/
def NUM_BACKGROUND_PIDS : Nat := 64

/-- The two output streams the shell writes to. -/
inductive OutStream where
  | stdout
  | stderr
  deriving DecidableEq, Repr

/-- Signals named in the source. -/
inductive Signal where
  | SIGINT
  | SIGTSTP
  | SIGCHLD
  | SIGTERM
  deriving DecidableEq, Repr

/-- Values given to `sa_handler` in the source. -/
inductive Handler where
  | SIG_IGN
  | SIG_DFL
  | catchSIGINT
  | catchSIGTSTP
  deriving DecidableEq, Repr

/-- First argument of `sigprocmask`. -/
inductive MaskHow where
  | SIG_BLOCK
  | SIG_UNBLOCK
  deriving DecidableEq, Repr

/-- Options passed to `waitpid`. -/
inductive WaitOption where
  | WSTOPPED
  | WNOHANG
  deriving DecidableEq, Repr

/-- How a redirect file is opened. -/
inductive OpenMode where
  | readOnly
  | writeCreateTrunc
  deriving DecidableEq, Repr

/-- One observable action of the shell: text written to a stream, or a request
made to the operating system. -/
inductive Effect where
  | write (s : OutStream) (text : String)
  | perror (tag : String)
  | sigprocmask (how : MaskHow) (set : List Signal)
  | waitpid (pid : Int) (opt : WaitOption)
  | sigaction (sig : Signal) (h : Handler)
  | openFile (path : String) (mode : OpenMode)
  | dup2 (fd : Int) (target : Int)
  | close (fd : Int)
  | fork
  | execvp (file : Option String) (argv : List String)
  | kill (pid : Int) (sig : Signal)
  | wait
  deriving DecidableEq, Repr

/-- How a process stops running the shell code: `exit(code)`, or a successful
`execvp` that replaces the process image. -/
inductive Halt where
  | exit (code : Int)
  | exec
  deriving DecidableEq, Repr

/-- Result of running a piece of the shell: the state it leaves, what it did,
and whether (and how) the process stopped before returning. -/
structure Outcome (σ : Type) where
  state : σ
  effects : List Effect
  halt : Option Halt

/-- The struct `ForegroundStatus` of signal_proc.h. -/
structure ForegroundStatus where
  statusNum : Int
  isSignal : Int
  deriving DecidableEq, Repr

/-- The struct `BackgroundProcesses` of signal_proc.h: an array of
`NUM_BACKGROUND_PIDS` process ids and a counter. -/
structure BackgroundProcesses where
  array : Fin NUM_BACKGROUND_PIDS → Int
  size : Int

/-- The struct `Argument` of input.h. -/
structure Argument where
  value : String
  isActive : Int
  deriving DecidableEq, Repr

/-- The struct `CommandInfo` of input.h. Only the first `numArgs` entries of
`args` are meaningful. -/
structure CommandInfo where
  args : List Argument
  numArgs : Nat
  isForeground : Int
  inRedirFile : String
  outRedirFile : String
  deriving DecidableEq, Repr

/-- The variables of `main` that the dispatch of one command reads and writes. -/
structure ShellVars where
  command : CommandInfo
  fs : ForegroundStatus
  bp : BackgroundProcesses

/-- What one call of `waitpid` gives back: its return value, and the value it
stores in `*wstatus` when it reports a child (return value positive). -/
structure WaitResult where
  ret : Int
  status : Int
  deriving DecidableEq, Repr

/-! ## Wait-status macros of `<sys/wait.h>` (Linux / glibc encoding) -/

/-- Conversion of an `int` to `signed char`. -/
def toSignedChar (v : Int) : Int :=
  let m := v % 256
  if m ≥ 128 then m - 256 else m

/-- The macro `WTERMSIG(s)`, which is `s & 0x7f`. -/
def WTERMSIG (s : Int) : Int := s % 128

/-- The macro `WEXITSTATUS(s)`, which is `(s & 0xff00) >> 8`. -/
def WEXITSTATUS (s : Int) : Int := (s / 256) % 256

/-- The macro `WIFEXITED(s)`, which is `WTERMSIG(s) == 0`. -/
def WIFEXITED (s : Int) : Bool := WTERMSIG s == 0

/-- The macro `WIFSIGNALED(s)`, which is
`((signed char) ((s & 0x7f) + 1) >> 1) > 0`. -/
def WIFSIGNALED (s : Int) : Bool := decide (toSignedChar (s % 128 + 1) / 2 > 0)

/-- The macro `W_EXITCODE(ret, sig)`, which is `ret << 8 | sig`: the wait status
of a child that exited with code `ret` (with `sig = 0`) or was killed by signal
`sig` (with `ret = 0`). Both arguments are below 256 where it is used. -/
def W_EXITCODE (ret sig : Int) : Int := ret * 256 + sig

/-- The core-dump flag `__WCOREFLAG` (0x80) of a wait status. -/
def WCOREFLAG : Int := 128

/-! ## signal_proc.c: initialisation -/

/-- The function `initBackgroundProcesses`: size 0, every slot `-1`. -/
def initBackgroundProcesses : BackgroundProcesses :=
  { array := fun _ => -1, size := 0 }

/-- The function `initForegroundStatus`. -/
def initForegroundStatus : ForegroundStatus :=
  { isSignal := 0, statusNum := -1 }

/-! ## builtins.c: executeStatus -/

/-- The function `executeStatus`. The output buffer starts empty; the sentinel
branch prints its message on stderr and leaves the buffer empty; the other two
branches fill the buffer. The buffer and a newline are then printed on stdout
in every case. -/
def executeStatus (fs : ForegroundStatus) : List Effect :=
  let outputBuffer := ""
  if fs.statusNum = -1 then
    [Effect.write OutStream.stderr
        "status: No foreground process executed by shell instance\n",
     Effect.write OutStream.stdout (outputBuffer ++ "\n")]
  else if fs.isSignal = 0 then
    [Effect.write OutStream.stdout ("exit value " ++ toString fs.statusNum ++ "\n")]
  else
    [Effect.write OutStream.stdout
        ("terminated by signal " ++ toString fs.statusNum ++ "\n")]

/-! ## signal_proc.c: informStatus -/

/-- The function `informStatus`: a status that is neither a normal exit nor a
signal termination leaves the struct as it was. -/
def informStatus (_pid : Int) (result : Int) (status : ForegroundStatus) :
    ForegroundStatus :=
  if WIFEXITED result then
    { isSignal := 0, statusNum := WEXITSTATUS result }
  else if WIFSIGNALED result then
    { isSignal := 1, statusNum := WTERMSIG result }
  else status

/-! ## signal_proc.c: the background registry -/

/-- The search loop of `_addBackgroundProcess` over the slot indices still to
visit: the first slot holding `-1` receives the PID and the size grows by one;
`none` when the loop ends without finding such a slot. -/
def addScan (bp : BackgroundProcesses) (childPid : Int) :
    List (Fin NUM_BACKGROUND_PIDS) → Option BackgroundProcesses
  | [] => none
  | i :: rest =>
    if bp.array i = -1 then
      some { array := Function.update bp.array i childPid, size := bp.size + 1 }
    else addScan bp childPid rest

/-- The function `_addBackgroundProcess`. -/
def _addBackgroundProcess (bp : BackgroundProcesses) (childPid : Int) :
    Outcome BackgroundProcesses :=
  if bp.size ≥ (NUM_BACKGROUND_PIDS : Int) then
    { state := bp
      effects := [Effect.write OutStream.stderr
        ("Warning: " ++ toString NUM_BACKGROUND_PIDS ++
          " background processes already running\n")]
      halt := some (Halt.exit 1) }
  else
    match addScan bp childPid (List.finRange NUM_BACKGROUND_PIDS) with
    | some bp1 => { state := bp1, effects := [], halt := none }
    | none =>
      { state := bp
        effects := [Effect.write OutStream.stderr
          "Warning: unable to place background process in array.\n"]
        halt := some (Halt.exit 1) }

/-- Loop state of `backgroundCleanup`: the registry, the local `processStat`
and what has been printed so far. -/
structure CleanupState where
  bp : BackgroundProcesses
  processStat : ForegroundStatus
  effects : List Effect

/-- One iteration of the loop of `backgroundCleanup` at slot `i`; `w i` is the
answer of `waitpid(bp->array[i], &status, WNOHANG)`. -/
def cleanupStep (w : Fin NUM_BACKGROUND_PIDS → WaitResult) (s : CleanupState)
    (i : Fin NUM_BACKGROUND_PIDS) : CleanupState :=
  if s.bp.array i ≠ -1 then
    if (w i).ret > 0 then
      let processStat := informStatus (s.bp.array i) (w i).status s.processStat
      { bp := { s.bp with array := Function.update s.bp.array i (-1) }
        processStat := processStat
        effects := s.effects ++
          [Effect.waitpid (s.bp.array i) WaitOption.WNOHANG,
           Effect.write OutStream.stdout
            ("background pid " ++ toString (s.bp.array i) ++ " is done: ")] ++
          executeStatus processStat }
    else { s with effects := s.effects ++
            [Effect.waitpid (s.bp.array i) WaitOption.WNOHANG] }
  else s

/-- The function `backgroundCleanup`. -/
def backgroundCleanup (bp : BackgroundProcesses)
    (w : Fin NUM_BACKGROUND_PIDS → WaitResult) : CleanupState :=
  (List.finRange NUM_BACKGROUND_PIDS).foldl (cleanupStep w)
    { bp := bp, processStat := initForegroundStatus, effects := [] }

/-! ## signal_proc.c: signal handler registration -/

/-- The function `registerParentHandlers`. -/
def registerParentHandlers : List Effect :=
  [Effect.sigaction Signal.SIGINT Handler.catchSIGINT,
   Effect.sigaction Signal.SIGTSTP Handler.catchSIGTSTP]

/-- The function `registerForegroundChildHandlers`. -/
def registerForegroundChildHandlers : List Effect :=
  [Effect.sigaction Signal.SIGTSTP Handler.SIG_IGN,
   Effect.sigaction Signal.SIGINT Handler.SIG_DFL]

/-- The function `registerBackgroundChildHandlers`. -/
def registerBackgroundChildHandlers : List Effect :=
  [Effect.sigaction Signal.SIGINT Handler.SIG_IGN,
   Effect.sigaction Signal.SIGTSTP Handler.SIG_IGN]

/-! ## signal_proc.c: handleNonBuiltIn -/

/-- Answers of the operating system to the calls `handleNonBuiltIn` makes:
the return value of `fork`, the answer of the blocking `waitpid`, the return
values of `open` and `dup2` for each redirect, and whether `execvp` fails
(it returns, with `-1`, only when it does). -/
structure LaunchOS where
  fork : Int
  wait : WaitResult
  openIn : Int
  dup2In : Int
  openOut : Int
  dup2Out : Int
  execFails : Bool

/-- The line `fprintf(stdout, "background pid id %d\n", spawnPid)`. -/
def announceBackground (spawnPid : Int) : Effect :=
  Effect.write OutStream.stdout ("background pid id " ++ toString spawnPid ++ "\n")

/-- The argument list built for `execvp`: the values of the first `numArgs`
arguments. -/
def argList (ci : CommandInfo) : List String :=
  (ci.args.take ci.numArgs).map Argument.value

/-- Child side: a background command with no explicit file for a stream gets
`/dev/null` for that stream. -/
def defaultRedirects (ci : CommandInfo) : CommandInfo :=
  let ci1 :=
    if ci.inRedirFile.length = 0 ∧ ci.isForeground = 0 then
      { ci with inRedirFile := "/dev/null" }
    else ci
  if ci1.outRedirFile.length = 0 ∧ ci1.isForeground = 0 then
    { ci1 with outRedirFile := "/dev/null" }
  else ci1

/-- Child side: the input redirection block. -/
def redirectInput (os : LaunchOS) (ci : CommandInfo) : List Effect × Option Halt :=
  if ci.inRedirFile.length ≠ 0 then
    if os.openIn = -1 then
      ([Effect.openFile ci.inRedirFile OpenMode.readOnly,
        Effect.write OutStream.stderr
          ("cannot open " ++ ci.inRedirFile ++ " for input\n")],
       some (Halt.exit 1))
    else if os.dup2In = -1 then
      ([Effect.openFile ci.inRedirFile OpenMode.readOnly,
        Effect.dup2 os.openIn 0, Effect.perror "dup2"],
       some (Halt.exit 1))
    else
      ([Effect.openFile ci.inRedirFile OpenMode.readOnly,
        Effect.dup2 os.openIn 0, Effect.close os.openIn], none)
  else ([], none)

/-- Child side: the output redirection block. -/
def redirectOutput (os : LaunchOS) (ci : CommandInfo) : List Effect × Option Halt :=
  if ci.outRedirFile.length ≠ 0 then
    if os.openOut = -1 then
      ([Effect.openFile ci.outRedirFile OpenMode.writeCreateTrunc,
        Effect.write OutStream.stderr
          ("cannot open " ++ ci.outRedirFile ++ " for output\n")],
       some (Halt.exit 1))
    else if os.dup2Out = -1 then
      ([Effect.openFile ci.outRedirFile OpenMode.writeCreateTrunc,
        Effect.dup2 os.openOut 1, Effect.perror "dup2"],
       some (Halt.exit 1))
    else
      ([Effect.openFile ci.outRedirFile OpenMode.writeCreateTrunc,
        Effect.dup2 os.openOut 1, Effect.close os.openOut], none)
  else ([], none)

/-- The branch `spawnPid == 0` of `handleNonBuiltIn`: what the child does.
It always ends in `exit(1)` or in a successful `execvp`. -/
def childSide (os : LaunchOS) (v : ShellVars) : Outcome ShellVars :=
  let handlers :=
    if v.command.isForeground ≠ 0 then registerForegroundChildHandlers
    else registerBackgroundChildHandlers
  let ci := defaultRedirects v.command
  let v1 : ShellVars := { v with command := ci }
  match redirectInput os ci with
  | (e1, some h) => { state := v1, effects := handlers ++ e1, halt := some h }
  | (e1, none) =>
    match redirectOutput os ci with
    | (e2, some h) => { state := v1, effects := handlers ++ e1 ++ e2, halt := some h }
    | (e2, none) =>
      let call := Effect.execvp (argList v.command).head? (argList v.command)
      if os.execFails then
        { state := v1
          effects := handlers ++ e1 ++ e2 ++
            [call, Effect.perror ((argList v.command).head?.getD "")]
          halt := some (Halt.exit 1) }
      else
        { state := v1, effects := handlers ++ e1 ++ e2 ++ [call], halt := some Halt.exec }

/-- The signal set `mask` built at the top of `handleNonBuiltIn`. -/
def waitMask : List Signal := [Signal.SIGCHLD, Signal.SIGINT, Signal.SIGTSTP]

/-- The code of `handleNonBuiltIn` after the fork branches: what the parent
does with the child's PID. `childExitMethod` starts as `-5` and is overwritten
only when `waitpid` reports a child. -/
def parentSide (os : LaunchOS) (v : ShellVars) : Outcome ShellVars :=
  let spawnPid := os.fork
  if v.command.isForeground ≠ 0 then
    let status := os.wait.ret
    let childExitMethod := if os.wait.ret > 0 then os.wait.status else -5
    let waiting :=
      [Effect.sigprocmask MaskHow.SIG_BLOCK waitMask,
       Effect.waitpid spawnPid WaitOption.WSTOPPED,
       Effect.sigprocmask MaskHow.SIG_UNBLOCK waitMask]
    if status ≠ -1 then
      let fs1 := informStatus spawnPid childExitMethod v.fs
      if WIFSIGNALED childExitMethod then
        { state := { v with fs := fs1 }
          effects := waiting ++ executeStatus fs1
          halt := none }
      else
        { state := { v with fs := fs1 }, effects := waiting, halt := none }
    else
      { state := v, effects := waiting ++ [Effect.perror "waitpid"], halt := none }
  else
    let r := _addBackgroundProcess v.bp spawnPid
    { state := { v with bp := r.state }
      effects := announceBackground spawnPid :: r.effects
      halt := r.halt }

/-- The function `handleNonBuiltIn`. -/
def handleNonBuiltIn (os : LaunchOS) (v : ShellVars) : Outcome ShellVars :=
  if os.fork = -1 then
    { state := v, effects := [Effect.fork, Effect.perror "fork"],
      halt := some (Halt.exit 1) }
  else if os.fork = 0 then
    let r := childSide os v
    { r with effects := Effect.fork :: r.effects }
  else
    let r := parentSide os v
    { r with effects := Effect.fork :: r.effects }

/-! ## main.c: the steps of the main loop around one command -/

/-- The global `FOREGROUND_FLAG` applied to the parsed command (main.c, the
`if (FOREGROUND_FLAG)` that follows `processInput`). -/
def mainForegroundOverride (FOREGROUND_FLAG : Int) (command : CommandInfo) :
    CommandInfo :=
  if FOREGROUND_FLAG ≠ 0 then { command with isForeground := 1 } else command

/-- The call `backgroundCleanup(&bp)` at the top of the main loop, on the
variables of `main`. -/
def mainCleanup (v : ShellVars) (w : Fin NUM_BACKGROUND_PIDS → WaitResult) :
    Outcome ShellVars :=
  let r := backgroundCleanup v.bp w
  { state := { v with bp := r.bp }, effects := r.effects, halt := none }

/-- The non-builtin case of the main loop: the override, then
`handleNonBuiltIn(&command, &fs, &bp)`. -/
def mainNonBuiltIn (os : LaunchOS) (FOREGROUND_FLAG : Int) (v : ShellVars) :
    Outcome ShellVars :=
  handleNonBuiltIn os
    { v with command := mainForegroundOverride FOREGROUND_FLAG v.command }

/-! ## Vocabulary of the statements -/

/-- The effects that put text on a stream. -/
def isOutput : Effect → Bool
  | Effect.write _ _ => true
  | Effect.perror _ => true
  | _ => false

/-- What a run printed, in order. -/
def output (es : List Effect) : List Effect := es.filter isOutput

/-- Number of slots of the registry that hold a PID. -/
def occupied (bp : BackgroundProcesses) : Nat :=
  ((List.finRange NUM_BACKGROUND_PIDS).filter (fun i => bp.array i ≠ -1)).length

/-- Registry states the shell can be in: the initial one, and those obtained
by a registration that returns or by a cleanup sweep, whatever the non-blocking
waits answer. -/
inductive Reachable : BackgroundProcesses → Prop where
  | init : Reachable initBackgroundProcesses
  | add {bp : BackgroundProcesses} (pid : Int) :
      Reachable bp → (_addBackgroundProcess bp pid).halt = none →
      Reachable (_addBackgroundProcess bp pid).state
  | cleanup {bp : BackgroundProcesses} (w : Fin NUM_BACKGROUND_PIDS → WaitResult) :
      Reachable bp → Reachable (backgroundCleanup bp w).bp

/-- The registry after registering the given PIDs one after the other. -/
def addMany (bp : BackgroundProcesses) : List Int → BackgroundProcesses
  | [] => bp
  | p :: ps => addMany (_addBackgroundProcess bp p).state ps

/-- Whether each of the registrations of `addMany` returns. -/
def addManyReturns (bp : BackgroundProcesses) : List Int → Bool
  | [] => true
  | p :: ps =>
    (_addBackgroundProcess bp p).halt == none &&
      addManyReturns (_addBackgroundProcess bp p).state ps

/-- The PIDs `1, 2, ..., n`. -/
def firstPids (n : Nat) : List Int := (List.range n).map (fun k => (k : Int) + 1)

/-- A sweep in which every waited-for child is reported as having exited
with code 0. -/
def allExited : Fin NUM_BACKGROUND_PIDS → WaitResult :=
  fun _ => { ret := 1, status := W_EXITCODE 0 0 }

/-- Stated from the claim on the sweep, not from the code: the status line of
a terminated child's own wait status, the exit value when the status is a
normal exit, the signal number otherwise. -/
def statusLine (status : Int) : Effect :=
  if WIFEXITED status then
    Effect.write OutStream.stdout ("exit value " ++ toString (WEXITSTATUS status) ++ "\n")
  else
    Effect.write OutStream.stdout
      ("terminated by signal " ++ toString (WTERMSIG status) ++ "\n")

/-- Stated from the claim on the sweep, not from the code: what a sweep is
expected to print for slot `i`, nothing when the slot is empty or its child is
not reported, else the announcement of the PID followed by the child's status
line. -/
def expectedReport (bp : BackgroundProcesses) (w : Fin NUM_BACKGROUND_PIDS → WaitResult)
    (i : Fin NUM_BACKGROUND_PIDS) : List Effect :=
  if bp.array i ≠ -1 ∧ (w i).ret > 0 then
    [Effect.write OutStream.stdout
      ("background pid " ++ toString (bp.array i) ++ " is done: "),
     statusLine (w i).status]
  else []

/-- The message `executeStatus` prints when no foreground process has run. -/
def noProcessMessage : Effect :=
  Effect.write OutStream.stderr
    "status: No foreground process executed by shell instance\n"

/-- A sweep in which no waited-for child has changed state. -/
def noneDone : Fin NUM_BACKGROUND_PIDS → WaitResult :=
  fun _ => { ret := 0, status := 0 }

/-- A parsed command `sleep 5 &`, before the foreground-only override. -/
def sampleBackgroundCommand : CommandInfo :=
  { args := [{ value := "sleep", isActive := 1 }, { value := "5", isActive := 1 }]
    numArgs := 2, isForeground := 0, inRedirFile := "", outRedirFile := "" }

/-- The variables of `main` after three background registrations and no
foreground command, with `sleep 5 &` parsed. -/
def sampleVars : ShellVars :=
  { command := sampleBackgroundCommand
    fs := initForegroundStatus
    bp := addMany initBackgroundProcesses [101, 102, 103] }

/-- Operating-system answers for a launch in the parent: the child has PID
`pid` and the blocking wait reports it with wait status `status`. -/
def parentOS (pid status : Int) : LaunchOS :=
  { fork := pid, wait := { ret := pid, status := status }
    openIn := 3, dup2In := 0, openOut := 4, dup2Out := 1, execFails := false }

/-- A sweep over three children: the first exited with code 3, the second is
still running, the third was killed by signal 15. -/
def mixedSweep : Fin NUM_BACKGROUND_PIDS → WaitResult :=
  fun i =>
    if i.val = 0 then { ret := 101, status := W_EXITCODE 3 0 }
    else if i.val = 2 then { ret := 103, status := W_EXITCODE 0 15 }
    else { ret := 0, status := 0 }

/-! ## builtins.c: executeExit -/

/-- A run of `executeExit`: the calls made so far, and whether the process is
held inside a `wait(0)` that does not return. -/
structure ExitRun where
  effects : List Effect
  blocked : Bool
  deriving DecidableEq, Repr

/-- One iteration of the loop of `executeExit` at slot `i`. `k i` is the return
value of `kill(bp->array[i], SIGTERM)`, which is called only when the slot
holds a PID. A failed `kill` is followed by `perror("kill")` and by the
blocking call `wait(0)`; `w i` tells whether that call returns. When it does
not, the loop never reaches the later slots. -/
def exitStep (bp : BackgroundProcesses) (k : Fin NUM_BACKGROUND_PIDS → Int)
    (w : Fin NUM_BACKGROUND_PIDS → Bool) (run : ExitRun)
    (i : Fin NUM_BACKGROUND_PIDS) : ExitRun :=
  if run.blocked then run
  else if bp.array i ≠ -1 then
    if k i ≠ 0 then
      { effects := run.effects ++
          [Effect.kill (bp.array i) Signal.SIGTERM, Effect.perror "kill", Effect.wait]
        blocked := !w i }
    else { run with effects := run.effects ++ [Effect.kill (bp.array i) Signal.SIGTERM] }
  else run

/-- The function `executeExit`; the registry itself is not written. The run
ends blocked when a `wait(0)` does not return, and otherwise the function
returns to its caller. -/
def executeExit (bp : BackgroundProcesses) (k : Fin NUM_BACKGROUND_PIDS → Int)
    (w : Fin NUM_BACKGROUND_PIDS → Bool) : ExitRun :=
  (List.finRange NUM_BACKGROUND_PIDS).foldl (exitStep bp k w)
    { effects := [], blocked := false }

/-! ## signal_proc.c: the handlers of the shell process -/

/-- The function `catchSIGINT`: `puts("")`. -/
def catchSIGINT : List Effect := [Effect.write OutStream.stdout "\n"]

/-- Result of `catchSIGTSTP`: the new value of the global `FOREGROUND_FLAG` and
what was printed. -/
structure FlagOutcome where
  flag : Int
  effects : List Effect
  deriving DecidableEq, Repr

/-- The function `catchSIGTSTP` on the global `FOREGROUND_FLAG`; each `puts`
writes its string and a newline on stdout. -/
def catchSIGTSTP (FOREGROUND_FLAG : Int) : FlagOutcome :=
  if FOREGROUND_FLAG = 0 then
    { flag := 1
      effects := [Effect.write OutStream.stdout ("" ++ "\n"),
        Effect.write OutStream.stdout
          ("Entering foreground-only mode (& is now ignored)" ++ "\n")] }
  else
    { flag := 0
      effects := [Effect.write OutStream.stdout ("" ++ "\n"),
        Effect.write OutStream.stdout ("Exiting foreground-only mode" ++ "\n")] }

/-! ## What the operating system does with the signal requests (POSIX) -/

/-- Effect of `sigprocmask(how, set, NULL)` on the signal mask of the process:
`SIG_BLOCK` adds the signals of `set`, `SIG_UNBLOCK` removes them. -/
def applySigprocmask (how : MaskHow) (set : List Signal) (mask : Signal → Bool) :
    Signal → Bool :=
  match how with
  | MaskHow.SIG_BLOCK => fun s => mask s || set.contains s
  | MaskHow.SIG_UNBLOCK => fun s => mask s && !set.contains s

/-- The signal mask after one effect. -/
def maskStep (mask : Signal → Bool) : Effect → (Signal → Bool)
  | Effect.sigprocmask how set => applySigprocmask how set mask
  | _ => mask

/-- The signal mask after a run, from the mask before it. -/
def maskAfter (mask : Signal → Bool) (es : List Effect) : Signal → Bool :=
  es.foldl maskStep mask

/-- The signal mask in force when the run makes its first blocking `waitpid`;
`none` when it makes none. -/
def maskAtWait (mask : Signal → Bool) : List Effect → Option (Signal → Bool)
  | [] => none
  | Effect.waitpid _ WaitOption.WSTOPPED :: _ => some mask
  | e :: es => maskAtWait (maskStep mask e) es

/-- The dispositions of the signals after one effect: `sigaction(sig, &act,
NULL)` sets the disposition of `sig` to the handler of `act`. -/
def dispositionStep (d : Signal → Handler) : Effect → (Signal → Handler)
  | Effect.sigaction sig h => Function.update d sig h
  | _ => d

/-- The dispositions of the signals after a run, from those before it. -/
def dispositionAfter (d : Signal → Handler) (es : List Effect) : Signal → Handler :=
  es.foldl dispositionStep d

/-- The three signal profiles of signal_proc.c. -/
inductive Profile where
  | parent
  | foregroundChild
  | backgroundChild
  deriving DecidableEq, Repr

/-- The registration function of each profile. -/
def Profile.register : Profile → List Effect
  | Profile.parent => registerParentHandlers
  | Profile.foregroundChild => registerForegroundChildHandlers
  | Profile.backgroundChild => registerBackgroundChildHandlers

/-! ## Vocabulary of the statements on redirection -/

/-- Stated from the claim on redirection, not from the code: the file a stream
of the child is redirected to, from the path of the command for that stream and
its foreground flag. The explicit path when one is given; `/dev/null` for a
background command without one; no redirection for a foreground command without
one. -/
def redirectTarget (path : String) (isForeground : Int) : Option String :=
  if path.length ≠ 0 then some path
  else if isForeground = 0 then some "/dev/null"
  else none

/-- The calls that redirect one stream to `target`: `open`, `dup2` onto the
stream's descriptor, `close`; none when there is no target. -/
def redirectCalls (target : Option String) (mode : OpenMode) (fd : Int) (stream : Int) :
    List Effect :=
  match target with
  | some path => [Effect.openFile path mode, Effect.dup2 fd stream, Effect.close fd]
  | none => []

/-- Operating-system answers for a launch seen from the child: `fork` returned
0, every `open` and `dup2` succeeds and so does `execvp`. -/
def childOS : LaunchOS :=
  { fork := 0, wait := { ret := 0, status := 0 }
    openIn := 3, dup2In := 0, openOut := 4, dup2Out := 1, execFails := false }

/-- A parsed foreground command `wc < in.txt`. -/
def sampleForegroundCommand : CommandInfo :=
  { args := [{ value := "wc", isActive := 1 }]
    numArgs := 1, isForeground := 1, inRedirFile := "in.txt", outRedirFile := "" }

/-- The variables of `main` with `wc < in.txt` parsed and a status recorded
from an earlier command that exited with code 2. -/
def sampleForegroundVars : ShellVars :=
  { command := sampleForegroundCommand
    fs := { isSignal := 0, statusNum := 2 }
    bp := addMany initBackgroundProcesses [101, 102, 103] }

/-- Operating-system answers for a launch in the parent whose blocking
`waitpid` on the child `pid` fails. -/
def failedWaitOS (pid : Int) : LaunchOS :=
  { fork := pid, wait := { ret := -1, status := 0 }
    openIn := 3, dup2In := 0, openOut := 4, dup2Out := 1, execFails := false }

/-- A signal mask in which only SIGINT is blocked. -/
def sigintBlocked : Signal → Bool := fun s => s == Signal.SIGINT

/-- The empty signal mask. -/
def noneBlocked : Signal → Bool := fun _ => false

/-- Answers of `kill` in which only the send to the PID of slot 1 fails. -/
def secondKillFails : Fin NUM_BACKGROUND_PIDS → Int :=
  fun i => if i.val = 1 then -1 else 0

/-- Answers of `kill` in which every send succeeds. -/
def allKillsSucceed : Fin NUM_BACKGROUND_PIDS → Int := fun _ => 0

/-- The `kill` requests among the effects. -/
def isKill : Effect → Bool
  | Effect.kill _ _ => true
  | _ => false

/-- The error reports (`perror`) among the effects. -/
def isErrorReport : Effect → Bool
  | Effect.perror _ => true
  | _ => false

/-- What `executeExit` does for slot `i` when it gets there, as a list. -/
def exitCalls (bp : BackgroundProcesses) (k : Fin NUM_BACKGROUND_PIDS → Int)
    (i : Fin NUM_BACKGROUND_PIDS) : List Effect :=
  if bp.array i ≠ -1 then
    if k i ≠ 0 then
      [Effect.kill (bp.array i) Signal.SIGTERM, Effect.perror "kill", Effect.wait]
    else [Effect.kill (bp.array i) Signal.SIGTERM]
  else []

/-- Answers of `kill` in which only the send to the PID of slot 0 fails. -/
def firstKillFails : Fin NUM_BACKGROUND_PIDS → Int :=
  fun i => if i.val = 0 then -1 else 0

/-- Every `wait(0)` returns: some child ends while the shell waits. -/
def waitsReturn : Fin NUM_BACKGROUND_PIDS → Bool := fun _ => true

/-- No `wait(0)` returns: no child ends while the shell waits. -/
def waitsBlock : Fin NUM_BACKGROUND_PIDS → Bool := fun _ => false

/-- The registry in which 64 children were registered and all of them reaped
by one sweep: every slot is free and `size` is 64. -/
def sweptRegistry : BackgroundProcesses :=
  (backgroundCleanup (addMany initBackgroundProcesses (firstPids 64)) allExited).bp

/-- The variables of `main` with `sleep 5 &` parsed over the swept registry. -/
def sweptVars : ShellVars :=
  { command := sampleBackgroundCommand, fs := initForegroundStatus, bp := sweptRegistry }

/-! ## input.c: processing of one input line

Strings held in C buffers are lists of characters without the terminating
NUL. The capacity of `argBuffer`, which `_processBuffer` fills token by token
from the three times larger expansion buffer, is part of the model. -/

/-- Length of the input buffer (`INPUT_BUFFER_LEN`, input.h). -/
def INPUT_BUFFER_LEN : Nat := 2048

/-- Maximum number of arguments in a line (`MAX_ARGS`, input.h). -/
def MAX_ARGS : Nat := 512

/-- The function `isspace` of `<ctype.h>` in the C locale: space, `\t`, `\n`,
`\v`, `\f`, `\r`. -/
def isspace (c : Char) : Bool :=
  c == ' ' || c == '\t' || c == '\n' || c == '\x0b' || c == '\x0c' || c == '\r'

/-- The loop of `_expandVars` over the characters still to read. `outBuffer`
is what has been written so far (`current` is its length) and `dollarFlag` the
flag of the source; `current--` followed by the copy of the PID string drops
the last character written and appends the PID. The last iteration, on the
terminating NUL, ends the output. -/
def expandLoop (pidBuffer : List Char) : List Char → List Char → Int → List Char
  | [], outBuffer, _ => outBuffer
  | c :: rest, outBuffer, dollarFlag =>
    if dollarFlag = 0 ∧ c = '$' then
      expandLoop pidBuffer rest (outBuffer ++ [c]) 1
    else if dollarFlag ≠ 0 ∧ c = '$' then
      expandLoop pidBuffer rest (outBuffer.dropLast ++ pidBuffer) 0
    else
      expandLoop pidBuffer rest (outBuffer ++ [c]) dollarFlag

/-- The function `_expandVars`; `pid` is the answer of `getpid()`, written in
decimal into `pidBuffer`. -/
def _expandVars (inBuffer : List Char) (pid : Int) : List Char :=
  expandLoop (toString pid).toList inBuffer [] 0

/-- The function `_addArgument` at position `numArgs`, the end of the
arguments stored so far: a new active argument holding a copy of the buffer.
The copy is a `strcpy` from `argBuffer`, an array of `INPUT_BUFFER_LEN + 1`
bytes cleared before each token: with more than `INPUT_BUFFER_LEN` characters
in it the array holds no terminating NUL and the copy runs past its end, which
is undefined behaviour (`none`). -/
def _addArgument (argBuffer : List Char) (args : List Argument) :
    Option (List Argument) :=
  if argBuffer.length ≤ INPUT_BUFFER_LEN then
    some (args ++ [{ value := String.mk argBuffer, isActive := 1 }])
  else none

/-- The test `numChars > 0 && !isspace(*(c - 1))`, and at the end of
`_processBuffer` `numChars > 0 && !isspace(inputBuffer[numChars - 1])`: `prev`
is the last character read, `none` when none has been read. -/
def prevNonSpace (prev : Option Char) : Bool :=
  match prev with
  | some p => !isspace p
  | none => false

/-- The `while` loop of `_processBuffer` over the characters still to read;
the number of arguments stored so far is the length of `args`, and
`currArgLen` is the length of `argBuffer`. It returns the arguments, the last
character read and the argument buffer when the loop stops: at the end of the
buffer, at a newline, or with `MAX_ARGS` arguments. The write
`argBuffer[currArgLen++] = *c` has no bound check in the source: past the
`INPUT_BUFFER_LEN + 1` bytes of the array it is undefined behaviour (`none`). -/
def processLoop : List Char → Option Char → List Char → List Argument →
    Option (List Argument × Option Char × List Char)
  | [], prev, argBuffer, args => some (args, prev, argBuffer)
  | c :: rest, prev, argBuffer, args =>
    if args.length < MAX_ARGS ∧ c ≠ '\n' then
      if !isspace c then
        if argBuffer.length < INPUT_BUFFER_LEN + 1 then
          processLoop rest (some c) (argBuffer ++ [c]) args
        else none
      else if prevNonSpace prev then
        match _addArgument argBuffer args with
        | some args1 => processLoop rest (some c) [] args1
        | none => none
      else processLoop rest (some c) argBuffer args
    else some (args, prev, argBuffer)

/-- The arguments `_processBuffer` holds once the loop has stopped in the
given state: the final argument is added if there is one. -/
def finalArgs (r : List Argument × Option Char × List Char) : Option (List Argument) :=
  if prevNonSpace r.2.1 ∧ r.1.length < MAX_ARGS then _addArgument r.2.2 r.1 else some r.1

/-- The function `_processBuffer`: the loop, then the final argument if there
is one. The entries of `args` from `numArgs` on are not kept. The result is
`none` when a token does not fit `argBuffer`. -/
def _processBuffer (inputBuffer : List Char) (ci : CommandInfo) : Option CommandInfo :=
  match processLoop inputBuffer none [] [] with
  | some r =>
    match finalArgs r with
    | some args => some { ci with args := args, numArgs := args.length }
    | none => none
  | none => none

/-- The value `ci->args[i]->value`. -/
def valueAt (args : List Argument) (i : Nat) : String :=
  match args[i]? with
  | some a => a.value
  | none => ""

/-- The assignment `ci->args[i]->isActive = 0`. -/
def setInactive : List Argument → Nat → List Argument
  | [], _ => []
  | a :: rest, 0 => { a with isActive := 0 } :: rest
  | a :: rest, i + 1 => a :: setInactive rest i

/-- The function `_determineForeground`. With no argument the foreground flag
keeps the value it had. -/
def _determineForeground (ci : CommandInfo) : CommandInfo :=
  if ci.numArgs > 0 then
    let boolean : Int := if valueAt ci.args (ci.numArgs - 1) ≠ "&" then 1 else 0
    let args := if boolean = 0 then setInactive ci.args (ci.numArgs - 1) else ci.args
    { ci with args := args, isForeground := boolean }
  else ci

/-- One iteration of the loop of `_determineRedirects` at index `i`: the block
for `<`, then the block for `>`. -/
def redirectStep (s : Outcome CommandInfo) (i : Nat) : Outcome CommandInfo :=
  let s1 : Outcome CommandInfo :=
    if valueAt s.state.args i = "<" then
      let args := setInactive s.state.args i
      if i < s.state.numArgs - 1 then
        { s with state := { s.state with
            inRedirFile := valueAt args (i + 1)
            args := setInactive args (i + 1) } }
      else
        { s with
          state := { s.state with args := args }
          effects := s.effects ++
            [Effect.write OutStream.stderr "Warning: Input redir doesn't specify file\n"] }
    else s
  if valueAt s1.state.args i = ">" then
    let args := setInactive s1.state.args i
    if i < s1.state.numArgs - 1 then
      { s1 with state := { s1.state with
          outRedirFile := valueAt args (i + 1)
          args := setInactive args (i + 1) } }
    else
      { s1 with
        state := { s1.state with args := args }
        effects := s1.effects ++
          [Effect.write OutStream.stderr "Warning: Output redir doesn't specify file\n"] }
  else s1

/-- The function `_determineRedirects`: both redirect files are cleared, then
the loop runs over the indices below `numArgs`. -/
def _determineRedirects (ci : CommandInfo) : Outcome CommandInfo :=
  (List.range ci.numArgs).foldl redirectStep
    { state := { ci with inRedirFile := "", outRedirFile := "" }
      effects := [], halt := none }

/-- The function `_filterInactiveArgs`: the active arguments among the first
`numArgs`, in order. The entries of `args` from the new `numArgs` on are not
kept. -/
def _filterInactiveArgs (ci : CommandInfo) : CommandInfo :=
  let newArgs := (ci.args.take ci.numArgs).filter (fun a => a.isActive ≠ 0)
  { ci with args := newArgs, numArgs := newArgs.length }

/-- The function `processInput`; `pid` is the answer of `getpid()`. The result
is `none` when `_processBuffer` runs into undefined behaviour. -/
def processInput (inputBuffer : List Char) (pid : Int) (ci : CommandInfo) :
    Option (Outcome CommandInfo) :=
  let tempBuffer := _expandVars inputBuffer pid
  match _processBuffer tempBuffer ci with
  | some ci1 =>
    let ci2 := _determineForeground ci1
    let r := _determineRedirects ci2
    some { r with state := _filterInactiveArgs r.state }
  | none => none

/-! ## Vocabulary of the statements on input processing -/

/-- Stated from the claim on `_expandVars`, not from the code: the input with
each occurrence of `$$`, taken left to right without overlap, replaced by the
PID string, every other character copied. -/
def expandSpec (pidText : List Char) : List Char → List Char
  | '$' :: '$' :: rest => pidText ++ expandSpec pidText rest
  | c :: rest => c :: expandSpec pidText rest
  | [] => []

/-- Stated from the claim on `_processBuffer`, not from the code: the maximal
runs of non-whitespace characters of the part of the line before its first
newline, in order. -/
def wordsOf (line : List Char) : List (List Char) :=
  ((line.takeWhile (fun c => c != '\n')).splitOnP isspace).filter (fun w => !w.isEmpty)

/-- Whether a token is one of the redirect operators `<` and `>`. -/
def isRedirectOp (t : String) : Bool := t == "<" || t == ">"

/-- A command descriptor before any line has been processed (`= {0}`). -/
def emptyCommand : CommandInfo :=
  { args := [], numArgs := 0, isForeground := 0, inRedirFile := "", outRedirFile := "" }

/-- The non-empty pieces between whitespace characters. -/
def runsOf (l : List Char) : List (List Char) :=
  (l.splitOnP isspace).filter (fun w => !w.isEmpty)

/-- A line of 513 `$$` and a newline: 1027 characters, which fits the input
buffer of `main`. -/
def dollarLine : List Char :=
  (List.replicate 513 ['$', '$']).flatten ++ ['\n']

/-- An argument with its `isActive` flag cleared. -/
def offArg (a : Argument) : Argument := { a with isActive := 0 }

/-- The arguments with the flag of the first one cleared. -/
def offHead : List Argument → List Argument
  | [] => []
  | b :: more => offArg b :: more

/-- The flags the loop of `_determineRedirects` leaves, described on the list:
an argument is inactive when it is a redirect operator or directly follows
one; `afterOp` tells whether the argument before the first one is a redirect
operator. -/
def markRedirects : Bool → List Argument → List Argument
  | _, [] => []
  | afterOp, a :: rest =>
    (if isRedirectOp a.value || afterOp then offArg a else a) ::
      markRedirects (isRedirectOp a.value) rest

/-- The macro `W_STOPCODE(sig)`, which is `sig << 8 | 0x7f`: the wait status of
a child stopped by signal `sig`. -/
def W_STOPCODE (sig : Int) : Int := sig * 256 + 127

/-! ## Lemmas on the wait-status macros and the status line -/

theorem WEXITSTATUS_range (s : Int) : 0 ≤ WEXITSTATUS s ∧ WEXITSTATUS s ≤ 255 := by
  unfold WEXITSTATUS; omega

theorem WTERMSIG_range (s : Int) : 0 ≤ WTERMSIG s ∧ WTERMSIG s ≤ 127 := by
  unfold WTERMSIG; omega

theorem executeStatus_informStatus (pid status : Int) (ps : ForegroundStatus)
    (h : WIFEXITED status = true ∨ WIFSIGNALED status = true) :
    executeStatus (informStatus pid status ps) = [statusLine status] := by
  have h1 := WEXITSTATUS_range status
  have h2 := WTERMSIG_range status
  unfold informStatus statusLine
  by_cases he : WIFEXITED status = true
  · have : WEXITSTATUS status ≠ -1 := by omega
    simp [he, executeStatus, this]
  · have hs : WIFSIGNALED status = true := by tauto
    have : WTERMSIG status ≠ -1 := by omega
    simp [he, hs, executeStatus, this]

theorem output_append (a b : List Effect) : output (a ++ b) = output a ++ output b := by
  simp [output]

theorem cleanupStep_size (w : Fin NUM_BACKGROUND_PIDS → WaitResult) (s : CleanupState)
    (i : Fin NUM_BACKGROUND_PIDS) : (cleanupStep w s i).bp.size = s.bp.size := by
  unfold cleanupStep; split_ifs <;> rfl

theorem cleanupStep_array (w : Fin NUM_BACKGROUND_PIDS → WaitResult) (s : CleanupState)
    (i j : Fin NUM_BACKGROUND_PIDS) :
    (cleanupStep w s i).bp.array j =
      if j = i ∧ s.bp.array i ≠ -1 ∧ (w i).ret > 0 then -1 else s.bp.array j := by
  unfold cleanupStep
  by_cases h1 : s.bp.array i ≠ -1
  · by_cases h2 : (w i).ret > 0
    · by_cases h3 : j = i
      · subst h3; simp [h1, h2]
      · simp [h1, h2, h3, Function.update_noteq h3]
    · simp [h1, h2]
  · simp [h1]

theorem cleanupStep_output (w : Fin NUM_BACKGROUND_PIDS → WaitResult) (s : CleanupState)
    (i : Fin NUM_BACKGROUND_PIDS)
    (h : s.bp.array i ≠ -1 → (w i).ret > 0 →
      WIFEXITED (w i).status = true ∨ WIFSIGNALED (w i).status = true) :
    output (cleanupStep w s i).effects = output s.effects ++ expectedReport s.bp w i := by
  unfold cleanupStep expectedReport
  by_cases h1 : s.bp.array i ≠ -1
  · by_cases h2 : (w i).ret > 0
    · simp only [h1, h2, if_true, and_self, ne_eq, not_false_eq_true]
      rw [executeStatus_informStatus _ _ _ (h h1 h2)]
      simp [output, isOutput, statusLine]
      split_ifs <;> simp [isOutput]
    · simp [h1, h2, output, isOutput]
  · simp [h1]

theorem cleanup_fold (w : Fin NUM_BACKGROUND_PIDS → WaitResult)
    (l : List (Fin NUM_BACKGROUND_PIDS)) :
    ∀ s : CleanupState, l.Nodup →
      (∀ i ∈ l, s.bp.array i ≠ -1 → (w i).ret > 0 →
        WIFEXITED (w i).status = true ∨ WIFSIGNALED (w i).status = true) →
      output (l.foldl (cleanupStep w) s).effects
          = output s.effects ++ l.flatMap (expectedReport s.bp w) ∧
      (∀ j, (l.foldl (cleanupStep w) s).bp.array j =
          if j ∈ l ∧ s.bp.array j ≠ -1 ∧ (w j).ret > 0 then -1 else s.bp.array j) ∧
      (l.foldl (cleanupStep w) s).bp.size = s.bp.size := by
  induction l with
  | nil => intro s _ _; simp
  | cons i rest ih =>
    intro s hnd hterm
    have hi : i ∉ rest := (List.nodup_cons.mp hnd).1
    have hrest : rest.Nodup := (List.nodup_cons.mp hnd).2
    have hsame : ∀ j ∈ rest, (cleanupStep w s i).bp.array j = s.bp.array j := by
      intro j hj
      have hji : j ≠ i := fun e => hi (e ▸ hj)
      simp [cleanupStep_array, hji]
    have hterm1 : ∀ j ∈ rest, (cleanupStep w s i).bp.array j ≠ -1 → (w j).ret > 0 →
        WIFEXITED (w j).status = true ∨ WIFSIGNALED (w j).status = true := by
      intro j hj h1 h2
      rw [hsame j hj] at h1
      exact hterm j (List.mem_cons_of_mem _ hj) h1 h2
    obtain ⟨ho, ha, hs⟩ := ih (cleanupStep w s i) hrest hterm1
    have hflat : rest.flatMap (expectedReport (cleanupStep w s i).bp w)
        = rest.flatMap (expectedReport s.bp w) := by
      apply List.flatMap_congr
      intro j hj
      simp only [expectedReport, hsame j hj]
    refine ⟨?_, ?_, ?_⟩
    · rw [List.foldl_cons, ho, cleanupStep_output w s i (hterm i (List.mem_cons_self _ _)),
        hflat, List.flatMap_cons, List.append_assoc]
    · intro j
      rw [List.foldl_cons, ha j, cleanupStep_array]
      by_cases hji : j = i
      · subst hji
        simp [hi]
      · have : (j ∈ i :: rest) ↔ j ∈ rest := by simp [hji]
        simp [hji, this]
    · rw [List.foldl_cons, hs, cleanupStep_size]

theorem WIFEXITED_exit (c : Int) : WIFEXITED (W_EXITCODE c 0) = true := by
  simp only [WIFEXITED, WTERMSIG, W_EXITCODE, beq_iff_eq]; omega

theorem WEXITSTATUS_exit (c : Int) (hc : 0 ≤ c ∧ c ≤ 255) :
    WEXITSTATUS (W_EXITCODE c 0) = c := by
  simp only [WEXITSTATUS, W_EXITCODE]; omega

theorem WTERMSIG_signal (n core : Int) (hn : 1 ≤ n ∧ n ≤ 126)
    (hcore : core = 0 ∨ core = WCOREFLAG) : WTERMSIG (W_EXITCODE 0 n + core) = n := by
  simp only [WTERMSIG, W_EXITCODE, WCOREFLAG] at *; omega

theorem WIFEXITED_signal (n core : Int) (hn : 1 ≤ n ∧ n ≤ 126)
    (hcore : core = 0 ∨ core = WCOREFLAG) : WIFEXITED (W_EXITCODE 0 n + core) = false := by
  have h := WTERMSIG_signal n core hn hcore
  simp only [WIFEXITED, h, beq_eq_false_iff_ne, ne_eq]; omega

theorem WIFSIGNALED_signal (n core : Int) (hn : 1 ≤ n ∧ n ≤ 126)
    (hcore : core = 0 ∨ core = WCOREFLAG) : WIFSIGNALED (W_EXITCODE 0 n + core) = true := by
  have h := WTERMSIG_signal n core hn hcore
  simp only [WTERMSIG] at h
  simp only [WIFSIGNALED, h, toSignedChar, decide_eq_true_eq]
  split_ifs <;> omega

theorem append_ne_append_of_head (a b x y : String) (c d : Char) (ta tb : List Char)
    (ha : a.data = c :: ta) (hb : b.data = d :: tb) (hcd : c ≠ d) : a ++ x ≠ b ++ y := by
  intro h
  have h1 := congrArg String.data h
  simp only [String.data_append, ha, hb, List.cons_append] at h1
  exact hcd (List.cons.inj h1).1

theorem announceBackground_not_mem_executeStatus (n : Int) (fs : ForegroundStatus) :
    announceBackground n ∉ executeStatus fs := by
  unfold announceBackground executeStatus
  have e1 : "background pid id " ++ toString n ++ "\n" ≠ "" ++ "\n" := by
    rw [String.append_assoc]
    exact append_ne_append_of_head _ "\n" _ "" 'b' '\n' "ackground pid id ".data [] rfl rfl (by decide)
  have e2 : "background pid id " ++ toString n ++ "\n" ≠
      "exit value " ++ toString fs.statusNum ++ "\n" := by
    rw [String.append_assoc, String.append_assoc]
    exact append_ne_append_of_head _ _ _ _ 'b' 'e' "ackground pid id ".data "xit value ".data
      rfl rfl (by decide)
  have e3 : "background pid id " ++ toString n ++ "\n" ≠
      "terminated by signal " ++ toString fs.statusNum ++ "\n" := by
    rw [String.append_assoc, String.append_assoc]
    exact append_ne_append_of_head _ _ _ _ 'b' 't' "ackground pid id ".data
      "erminated by signal ".data rfl rfl (by decide)
  have e0 : "background pid id " ++ toString n ++ "\n" ≠ "\n" :=
    fun h => e1 (h.trans (by decide))
  by_cases hs : fs.statusNum = -1
  · simp [hs, e0]
  · by_cases hi : fs.isSignal = 0 <;> simp [hs, hi, e2, e3]

/-! ## Lemmas on the registration loop -/

theorem addScan_none_of_full (bp : BackgroundProcesses) (pid : Int)
    (h : ∀ i, bp.array i ≠ -1) (l : List (Fin NUM_BACKGROUND_PIDS)) :
    addScan bp pid l = none := by
  induction l with
  | nil => rfl
  | cons i rest ih => simp [addScan, h i, ih]

theorem addScan_first_free (bp : BackgroundProcesses) (pid : Int)
    (l : List (Fin NUM_BACKGROUND_PIDS)) (hl : l.Pairwise (· < ·))
    (hfree : ∃ i ∈ l, bp.array i = -1) :
    ∃ i ∈ l, bp.array i = -1 ∧ (∀ j ∈ l, j < i → bp.array j ≠ -1) ∧
      addScan bp pid l =
        some { array := Function.update bp.array i pid, size := bp.size + 1 } := by
  induction l with
  | nil => obtain ⟨i, hi, _⟩ := hfree; cases hi
  | cons k rest ih =>
    have hk : ∀ j ∈ rest, k < j := (List.pairwise_cons.mp hl).1
    by_cases h : bp.array k = -1
    · refine ⟨k, List.mem_cons_self _ _, h, ?_, by simp [addScan, h]⟩
      intro j hj hlt
      rcases List.mem_cons.mp hj with e | hr
      · exact absurd (e ▸ hlt) (lt_irrefl _)
      · exact absurd (lt_trans (hk j hr) hlt) (lt_irrefl _)
    · have hfree1 : ∃ i ∈ rest, bp.array i = -1 := by
        obtain ⟨i, hi, he⟩ := hfree
        rcases List.mem_cons.mp hi with e | hr
        · exact absurd (e ▸ he) h
        · exact ⟨i, hr, he⟩
      obtain ⟨i, hi, he, hlow, hscan⟩ := ih (List.pairwise_cons.mp hl).2 hfree1
      refine ⟨i, List.mem_cons_of_mem _ hi, he, ?_, by simp [addScan, h, hscan]⟩
      intro j hj hlt
      rcases List.mem_cons.mp hj with e | hr
      · rw [e]; exact h
      · exact hlow j hr hlt

theorem addBackgroundProcess_below_capacity (bp : BackgroundProcesses) (pid : Int)
    (hsize : bp.size < (NUM_BACKGROUND_PIDS : Int)) (hfree : ∃ i, bp.array i = -1) :
    ∃ i, bp.array i = -1 ∧ (∀ j, j < i → bp.array j ≠ -1) ∧
      (_addBackgroundProcess bp pid).halt = none ∧
      (_addBackgroundProcess bp pid).effects = [] ∧
      (_addBackgroundProcess bp pid).state.array = Function.update bp.array i pid ∧
      (_addBackgroundProcess bp pid).state.size = bp.size + 1 := by
  obtain ⟨i0, h0⟩ := hfree
  obtain ⟨i, _, he, hlow, hscan⟩ := addScan_first_free bp pid
    (List.finRange NUM_BACKGROUND_PIDS) (List.pairwise_lt_finRange _)
    ⟨i0, List.mem_finRange _, h0⟩
  refine ⟨i, he, fun j hj => hlow j (List.mem_finRange _) hj, ?_⟩
  unfold _addBackgroundProcess
  rw [if_neg (not_le.mpr hsize), hscan]
  exact ⟨rfl, rfl, rfl, rfl⟩

theorem reachable_addMany (l : List Int) :
    ∀ bp, Reachable bp → addManyReturns bp l = true → Reachable (addMany bp l) := by
  induction l with
  | nil => intro bp h _; exact h
  | cons p ps ih =>
    intro bp h hr
    simp only [addManyReturns, Bool.and_eq_true, beq_iff_eq] at hr
    exact ih _ (Reachable.add p h hr.1) hr.2

/-! ## The count never falls below the number of occupied slots -/

theorem occupied_update_le (f : Fin NUM_BACKGROUND_PIDS → Int) (i : Fin NUM_BACKGROUND_PIDS)
    (pid : Int) (l : List (Fin NUM_BACKGROUND_PIDS)) (hl : l.Nodup) :
    (l.filter (fun j => Function.update f i pid j ≠ -1)).length
      ≤ (l.filter (fun j => f j ≠ -1)).length + 1 := by
  induction l with
  | nil => simp
  | cons k rest ih =>
    have hk : k ∉ rest := (List.nodup_cons.mp hl).1
    have ih1 := ih (List.nodup_cons.mp hl).2
    by_cases hki : k = i
    · subst hki
      have hsame : rest.filter (fun j => Function.update f k pid j ≠ -1)
          = rest.filter (fun j => f j ≠ -1) := by
        apply List.filter_congr
        intro j hj
        have : j ≠ k := fun e => hk (e ▸ hj)
        simp [Function.update_noteq this]
      have h1 := List.length_filter_le (fun j => decide (Function.update f k pid j ≠ -1)) [k]
      have h2 : ((k :: rest).filter (fun j => Function.update f k pid j ≠ -1)).length
          ≤ 1 + (rest.filter (fun j => f j ≠ -1)).length := by
        rw [show k :: rest = [k] ++ rest from rfl, List.filter_append, List.length_append, hsame]
        simp only [List.length_singleton] at h1
        omega
      have h3 : (rest.filter (fun j => f j ≠ -1)).length
          ≤ ((k :: rest).filter (fun j => f j ≠ -1)).length := by
        rw [show k :: rest = [k] ++ rest from rfl, List.filter_append, List.length_append]
        omega
      omega
    · have e : ∀ (g : Fin NUM_BACKGROUND_PIDS → Int),
          ((k :: rest).filter (fun j => g j ≠ -1)).length
            = ([k].filter (fun j => g j ≠ -1)).length
              + (rest.filter (fun j => g j ≠ -1)).length := by
        intro g
        rw [show k :: rest = [k] ++ rest from rfl, List.filter_append, List.length_append]
      have hkk : [k].filter (fun j => Function.update f i pid j ≠ -1)
          = [k].filter (fun j => f j ≠ -1) := by
        apply List.filter_congr
        intro j hj
        have : j ≠ i := by
          rw [List.mem_singleton] at hj
          rw [hj]; exact hki
        simp [Function.update_noteq this]
      rw [e (Function.update f i pid), e f, hkk]
      omega

theorem occupied_le_of_imp (f g : Fin NUM_BACKGROUND_PIDS → Int)
    (h : ∀ j, g j ≠ -1 → f j ≠ -1) (l : List (Fin NUM_BACKGROUND_PIDS)) :
    (l.filter (fun j => g j ≠ -1)).length ≤ (l.filter (fun j => f j ≠ -1)).length := by
  rw [← List.countP_eq_length_filter, ← List.countP_eq_length_filter]
  apply List.countP_mono_left
  intro j _ hj
  simp only [decide_eq_true_eq] at hj ⊢
  exact h j hj

theorem cleanup_fold_frame (w : Fin NUM_BACKGROUND_PIDS → WaitResult)
    (l : List (Fin NUM_BACKGROUND_PIDS)) :
    ∀ s : CleanupState,
      (∀ j, (l.foldl (cleanupStep w) s).bp.array j = s.bp.array j ∨
        (l.foldl (cleanupStep w) s).bp.array j = -1) ∧
      (l.foldl (cleanupStep w) s).bp.size = s.bp.size := by
  induction l with
  | nil => intro s; simp
  | cons i rest ih =>
    intro s
    obtain ⟨ha, hs⟩ := ih (cleanupStep w s i)
    refine ⟨?_, ?_⟩
    · intro j
      rw [List.foldl_cons]
      rcases ha j with e | e
      · rw [e, cleanupStep_array]
        split_ifs
        · exact Or.inr rfl
        · exact Or.inl rfl
      · exact Or.inr e
    · rw [List.foldl_cons, hs, cleanupStep_size]

theorem addBackgroundProcess_fatal_of_full (bp : BackgroundProcesses) (pid : Int)
    (hfull : ∀ i, bp.array i ≠ -1) :
    (_addBackgroundProcess bp pid).halt = some (Halt.exit 1) ∧
    (_addBackgroundProcess bp pid).state = bp := by
  unfold _addBackgroundProcess
  split
  · exact ⟨rfl, rfl⟩
  · rw [addScan_none_of_full bp pid hfull]
    exact ⟨rfl, rfl⟩

theorem reachable_occupied_le_size (bp : BackgroundProcesses) (h : Reachable bp) :
    (occupied bp : Int) ≤ bp.size := by
  induction h with
  | init => simp [occupied, initBackgroundProcesses]
  | @add bp pid _ hret ih =>
    by_cases hsz : bp.size ≥ (NUM_BACKGROUND_PIDS : Int)
    · have hx : (_addBackgroundProcess bp pid).halt = some (Halt.exit 1) := by
        unfold _addBackgroundProcess; rw [if_pos hsz]
      rw [hx] at hret; cases hret
    · by_cases hfree : ∃ i, bp.array i = -1
      · obtain ⟨i, _, _, _, _, harr, hsz1⟩ :=
          addBackgroundProcess_below_capacity bp pid (not_le.mp hsz) hfree
        have := occupied_update_le bp.array i pid _ (List.nodup_finRange NUM_BACKGROUND_PIDS)
        unfold occupied at ih ⊢
        rw [harr, hsz1]
        omega
      · push_neg at hfree
        rw [(addBackgroundProcess_fatal_of_full bp pid hfree).1] at hret
        cases hret
  | @cleanup bp w _ ih =>
    obtain ⟨ha, hs⟩ := cleanup_fold_frame w (List.finRange NUM_BACKGROUND_PIDS)
      { bp := bp, processStat := initForegroundStatus, effects := [] }
    have hle := occupied_le_of_imp bp.array (backgroundCleanup bp w).bp.array (by
      intro j hj
      unfold backgroundCleanup at hj
      rcases ha j with e | e
      · rw [e] at hj; exact hj
      · rw [e] at hj; exact absurd rfl hj) (List.finRange NUM_BACKGROUND_PIDS)
    have hs1 : (backgroundCleanup bp w).bp.size = bp.size := by
      unfold backgroundCleanup; exact hs
    unfold occupied at ih ⊢
    rw [hs1]
    omega

/-- In every reachable registry a count below capacity comes with a free
slot. -/
theorem reachable_free_slot (bp : BackgroundProcesses) (h : Reachable bp)
    (hsize : bp.size < (NUM_BACKGROUND_PIDS : Int)) : ∃ i, bp.array i = -1 := by
  by_contra hno
  push_neg at hno
  have hocc := reachable_occupied_le_size bp h
  have hall : (List.finRange NUM_BACKGROUND_PIDS).filter (fun j => bp.array j ≠ -1)
      = List.finRange NUM_BACKGROUND_PIDS := by
    apply List.filter_eq_self.mpr
    intro j _
    simp [hno j]
  have : occupied bp = NUM_BACKGROUND_PIDS := by
    unfold occupied
    rw [hall, List.length_finRange]
  omega

/-! ## Lemmas on the launch of a command -/

theorem parentSide_foreground (os : LaunchOS) (v : ShellVars)
    (hfg : v.command.isForeground ≠ 0) :
    ∃ (fs1 : ForegroundStatus) (tail : List Effect),
      parentSide os v =
        { state := { command := v.command, fs := fs1, bp := v.bp }
          effects := [Effect.sigprocmask MaskHow.SIG_BLOCK waitMask,
            Effect.waitpid os.fork WaitOption.WSTOPPED,
            Effect.sigprocmask MaskHow.SIG_UNBLOCK waitMask] ++ tail
          halt := none } ∧
      ∀ n, announceBackground n ∉ tail := by
  unfold parentSide
  simp only [hfg, ne_eq, not_false_eq_true, if_true]
  by_cases hw : os.wait.ret = -1
  · refine ⟨v.fs, [Effect.perror "waitpid"], ?_, ?_⟩
    · simp only [hw, not_true_eq_false, if_false]
    · intro n; simp [announceBackground]
  · by_cases hsig : WIFSIGNALED (if os.wait.ret > 0 then os.wait.status else -5) = true
    · refine ⟨informStatus os.fork (if os.wait.ret > 0 then os.wait.status else -5) v.fs,
        executeStatus (informStatus os.fork
        (if os.wait.ret > 0 then os.wait.status else -5) v.fs), ?_, ?_⟩
      · simp only [hw, not_false_eq_true, if_true, hsig]
      · intro n; exact announceBackground_not_mem_executeStatus n _
    · refine ⟨informStatus os.fork (if os.wait.ret > 0 then os.wait.status else -5) v.fs,
        [], ?_, ?_⟩
      · simp only [hw, not_false_eq_true, if_true, hsig, List.append_nil]
        simp
      · intro n; simp

/-! ## The background registry: claims -/

set_option maxRecDepth 100000 in
/-- C1 (fails on the code): a registry reached by 64 registrations followed by
one sweep that reaps every child has all 64 slots empty, yet one more
`_addBackgroundProcess` exits the shell with status 1 instead of storing the
PID in slot 0. -/
theorem addBackgroundProcess_fatal_with_free_slots :
    Reachable (backgroundCleanup (addMany initBackgroundProcesses (firstPids 64)) allExited).bp ∧
    (∀ i, (backgroundCleanup (addMany initBackgroundProcesses (firstPids 64))
        allExited).bp.array i = -1) ∧
    (_addBackgroundProcess
      (backgroundCleanup (addMany initBackgroundProcesses (firstPids 64)) allExited).bp
      65).halt = some (Halt.exit 1) := by
  refine ⟨Reachable.cleanup _ (reachable_addMany _ _ Reachable.init (by decide)), ?_, ?_⟩
  · decide
  · decide

set_option maxRecDepth 100000 in
/-- C2 (fails on the code): after one registration and one sweep that reaps the
child, the registry is reachable, no slot is occupied, and `size` is still 1. -/
theorem size_differs_from_occupied_after_sweep :
    Reachable (backgroundCleanup (_addBackgroundProcess initBackgroundProcesses 100).state
      allExited).bp ∧
    (backgroundCleanup (_addBackgroundProcess initBackgroundProcesses 100).state
      allExited).bp.size = 1 ∧
    occupied (backgroundCleanup (_addBackgroundProcess initBackgroundProcesses 100).state
      allExited).bp = 0 := by
  refine ⟨Reachable.cleanup _ (Reachable.add 100 Reachable.init (by decide)), ?_, ?_⟩
  · decide
  · decide

/-- C3: when every slot of the registry holds a PID, `_addBackgroundProcess`
exits with status 1 and the registry at the point of exit is the one it was
given: no slot and no count has been changed. -/
theorem addBackgroundProcess_full_is_fatal (bp : BackgroundProcesses) (pid : Int)
    (hfull : ∀ i, bp.array i ≠ -1) :
    (_addBackgroundProcess bp pid).halt = some (Halt.exit 1) ∧
    (_addBackgroundProcess bp pid).state.array = bp.array ∧
    (_addBackgroundProcess bp pid).state.size = bp.size := by
  unfold _addBackgroundProcess
  split
  · exact ⟨rfl, rfl, rfl⟩
  · rw [addScan_none_of_full bp pid hfull]
    exact ⟨rfl, rfl, rfl⟩

set_option maxRecDepth 100000 in
/-- Witness for C3: the registry after 64 registrations. -/
theorem addBackgroundProcess_full_is_fatal_witness :
    (∀ i, (addMany initBackgroundProcesses (firstPids 64)).array i ≠ -1) ∧
    (_addBackgroundProcess (addMany initBackgroundProcesses (firstPids 64)) 65).halt
      = some (Halt.exit 1) ∧
    (_addBackgroundProcess (addMany initBackgroundProcesses (firstPids 64)) 65).state.array
      = (addMany initBackgroundProcesses (firstPids 64)).array ∧
    (_addBackgroundProcess (addMany initBackgroundProcesses (firstPids 64)) 65).state.size
      = (addMany initBackgroundProcesses (firstPids 64)).size :=
  ⟨by decide, addBackgroundProcess_full_is_fatal _ 65 (by decide)⟩

/-- C4: when the non-blocking wait reports no terminated child for any occupied
slot (`waitpid` result at most 0), `backgroundCleanup`, as called by the main
loop, leaves every slot of the registry, its count and the shell's
`ForegroundStatus` unchanged and prints nothing. -/
theorem backgroundCleanup_without_termination (v : ShellVars)
    (w : Fin NUM_BACKGROUND_PIDS → WaitResult)
    (hnone : ∀ i, v.bp.array i ≠ -1 → (w i).ret ≤ 0) :
    (backgroundCleanup v.bp w).bp.array = v.bp.array ∧
    (backgroundCleanup v.bp w).bp.size = v.bp.size ∧
    output (backgroundCleanup v.bp w).effects = [] ∧
    (mainCleanup v w).state.bp.array = v.bp.array ∧
    (mainCleanup v w).state.bp.size = v.bp.size ∧
    (mainCleanup v w).state.fs = v.fs ∧
    output (mainCleanup v w).effects = [] := by
  have hterm : ∀ i ∈ List.finRange NUM_BACKGROUND_PIDS, v.bp.array i ≠ -1 → (w i).ret > 0 →
      WIFEXITED (w i).status = true ∨ WIFSIGNALED (w i).status = true := by
    intro i _ h1 h2
    have := hnone i h1
    omega
  obtain ⟨ho, ha, hs⟩ := cleanup_fold w (List.finRange NUM_BACKGROUND_PIDS)
    { bp := v.bp, processStat := initForegroundStatus, effects := [] }
    (List.nodup_finRange _) hterm
  have hquiet : ∀ i, expectedReport v.bp w i = [] := by
    intro i
    unfold expectedReport
    split_ifs with h
    · have := hnone i h.1
      omega
    · rfl
  have harr : (backgroundCleanup v.bp w).bp.array = v.bp.array := by
    funext j
    have hj := ha j
    unfold backgroundCleanup
    rw [hj]
    split_ifs with h
    · have := hnone j h.2.1
      omega
    · rfl
  have hout : output (backgroundCleanup v.bp w).effects = [] := by
    unfold backgroundCleanup
    rw [ho]
    simp [output, hquiet]
  have hsize : (backgroundCleanup v.bp w).bp.size = v.bp.size := by
    unfold backgroundCleanup
    exact hs
  refine ⟨harr, hsize, hout, ?_, ?_, ?_, ?_⟩
  · simpa only [mainCleanup] using harr
  · simpa only [mainCleanup] using hsize
  · simp only [mainCleanup]
  · simpa only [mainCleanup] using hout

/-- Witness for C4: three registered children, none of them finished. -/
theorem backgroundCleanup_without_termination_witness :
    (∀ i, sampleVars.bp.array i ≠ -1 → (noneDone i).ret ≤ 0) ∧
    ((backgroundCleanup sampleVars.bp noneDone).bp.array = sampleVars.bp.array ∧
    (backgroundCleanup sampleVars.bp noneDone).bp.size = sampleVars.bp.size ∧
    output (backgroundCleanup sampleVars.bp noneDone).effects = [] ∧
    (mainCleanup sampleVars noneDone).state.bp.array = sampleVars.bp.array ∧
    (mainCleanup sampleVars noneDone).state.bp.size = sampleVars.bp.size ∧
    (mainCleanup sampleVars noneDone).state.fs = sampleVars.fs ∧
    output (mainCleanup sampleVars noneDone).effects = []) :=
  ⟨fun _ _ => Int.le_refl 0,
   backgroundCleanup_without_termination sampleVars noneDone (fun _ _ => Int.le_refl 0)⟩

/-- C5: for every registry and every answer of the non-blocking waits in which
a child reported as terminated carries the wait status of a normal exit or of
a signal termination, `backgroundCleanup` prints, slot by slot, for each
occupied slot whose child is reported terminated the text
"background pid N is done: " immediately followed by the status line of that
child's own wait status, prints nothing else, sets exactly those slots to `-1`
and leaves every other slot as it was. -/
theorem backgroundCleanup_reports_terminated (bp : BackgroundProcesses)
    (w : Fin NUM_BACKGROUND_PIDS → WaitResult)
    (hterm : ∀ i, bp.array i ≠ -1 → (w i).ret > 0 →
      WIFEXITED (w i).status = true ∨ WIFSIGNALED (w i).status = true) :
    output (backgroundCleanup bp w).effects
      = (List.finRange NUM_BACKGROUND_PIDS).flatMap (expectedReport bp w) ∧
    ∀ i, (backgroundCleanup bp w).bp.array i =
      if bp.array i ≠ -1 ∧ (w i).ret > 0 then -1 else bp.array i := by
  obtain ⟨ho, ha, _⟩ := cleanup_fold w (List.finRange NUM_BACKGROUND_PIDS)
    { bp := bp, processStat := initForegroundStatus, effects := [] }
    (List.nodup_finRange _) (fun i _ => hterm i)
  refine ⟨?_, ?_⟩
  · unfold backgroundCleanup
    rw [ho]
    simp [output]
  · intro i
    unfold backgroundCleanup
    rw [ha i]
    simp [List.mem_finRange]

set_option maxRecDepth 100000 in
/-- Witness for C5. -/
theorem backgroundCleanup_reports_terminated_witness :
    output (backgroundCleanup sampleVars.bp mixedSweep).effects =
      [Effect.write OutStream.stdout "background pid 101 is done: ",
       Effect.write OutStream.stdout "exit value 3\n",
       Effect.write OutStream.stdout "background pid 103 is done: ",
       Effect.write OutStream.stdout "terminated by signal 15\n"] ∧
    (output (backgroundCleanup sampleVars.bp mixedSweep).effects
      = (List.finRange NUM_BACKGROUND_PIDS).flatMap (expectedReport sampleVars.bp mixedSweep) ∧
    ∀ i, (backgroundCleanup sampleVars.bp mixedSweep).bp.array i =
      if sampleVars.bp.array i ≠ -1 ∧ (mixedSweep i).ret > 0 then -1
      else sampleVars.bp.array i) :=
  ⟨by decide,
   backgroundCleanup_reports_terminated sampleVars.bp mixedSweep (by decide)⟩

/-! ## Termination status: claims -/

/-- C6: for the wait status of a normal exit with code `c` in 0..255,
`informStatus` records `isSignal = 0` and `statusNum = c`; for the wait status
of a termination by signal `n` in 1..126, with or without the core-dump bit, it
records `isSignal = 1` and `statusNum = n`, whatever the struct held before. -/
theorem informStatus_records_outcome (pid c n core : Int) (fs : ForegroundStatus)
    (hc : 0 ≤ c ∧ c ≤ 255) (hn : 1 ≤ n ∧ n ≤ 126)
    (hcore : core = 0 ∨ core = WCOREFLAG) :
    informStatus pid (W_EXITCODE c 0) fs = { isSignal := 0, statusNum := c } ∧
    informStatus pid (W_EXITCODE 0 n + core) fs = { isSignal := 1, statusNum := n } := by
  constructor
  · simp [informStatus, WIFEXITED_exit, WEXITSTATUS_exit c hc]
  · simp [informStatus, WIFEXITED_signal n core hn hcore, WIFSIGNALED_signal n core hn hcore,
      WTERMSIG_signal n core hn hcore]

/-- Witness for C6: exit code 7 gives (0, 7) and signal 9 gives (1, 9). -/
theorem informStatus_records_outcome_witness :
    informStatus 4242 (W_EXITCODE 7 0) initForegroundStatus
      = { isSignal := 0, statusNum := 7 } ∧
    informStatus 4242 (W_EXITCODE 0 9 + 0) initForegroundStatus
      = { isSignal := 1, statusNum := 9 } :=
  informStatus_records_outcome 4242 7 9 0 initForegroundStatus
    (by decide) (by decide) (Or.inl rfl)

/-- C7: the status `informStatus` records for a wait status that is a normal
exit or a signal termination has `statusNum` in 0..255, hence never the
sentinel `-1`, and so differs from the status of `initForegroundStatus`;
`executeStatus` prints its no-process message exactly for a status whose
`statusNum` is `-1`, so it prints it for the initial status and for no
recorded one. -/
theorem recorded_status_differs_from_initial (pid result : Int) (fs other : ForegroundStatus)
    (h : WIFEXITED result = true ∨ WIFSIGNALED result = true) :
    informStatus pid result fs ≠ initForegroundStatus ∧
    0 ≤ (informStatus pid result fs).statusNum ∧
    (informStatus pid result fs).statusNum ≤ 255 ∧
    (informStatus pid result fs).statusNum ≠ -1 ∧
    noProcessMessage ∉ executeStatus (informStatus pid result fs) ∧
    noProcessMessage ∈ executeStatus initForegroundStatus ∧
    (noProcessMessage ∈ executeStatus other ↔ other.statusNum = -1) := by
  have h1 := WEXITSTATUS_range result
  have h2 := WTERMSIG_range result
  have hiff : ∀ s : ForegroundStatus,
      noProcessMessage ∈ executeStatus s ↔ s.statusNum = -1 := by
    intro s
    unfold executeStatus noProcessMessage
    by_cases hs : s.statusNum = -1
    · simp [hs]
    · by_cases hi : s.isSignal = 0 <;> simp [hs, hi]
  have hrange : 0 ≤ (informStatus pid result fs).statusNum ∧
      (informStatus pid result fs).statusNum ≤ 255 := by
    unfold informStatus
    by_cases he : WIFEXITED result = true
    · simp only [he, if_true]; omega
    · have hsig : WIFSIGNALED result = true := by tauto
      simp only [he, hsig, if_true]
      constructor <;> simp <;> omega
  have hne : (informStatus pid result fs).statusNum ≠ -1 := by omega
  refine ⟨?_, hrange.1, hrange.2, hne, ?_, ?_, hiff other⟩
  · intro heq
    rw [heq] at hne
    exact hne rfl
  · rw [hiff]; exact hne
  · rw [hiff]; rfl

/-- Witness for C7: the status recorded for a child that exited with code 0. -/
theorem recorded_status_differs_from_initial_witness :
    informStatus 4242 (W_EXITCODE 0 0) initForegroundStatus ≠ initForegroundStatus ∧
    0 ≤ (informStatus 4242 (W_EXITCODE 0 0) initForegroundStatus).statusNum ∧
    (informStatus 4242 (W_EXITCODE 0 0) initForegroundStatus).statusNum ≤ 255 ∧
    (informStatus 4242 (W_EXITCODE 0 0) initForegroundStatus).statusNum ≠ -1 ∧
    noProcessMessage ∉ executeStatus (informStatus 4242 (W_EXITCODE 0 0) initForegroundStatus) ∧
    noProcessMessage ∈ executeStatus initForegroundStatus ∧
    (noProcessMessage ∈ executeStatus initForegroundStatus
      ↔ initForegroundStatus.statusNum = -1) :=
  recorded_status_differs_from_initial 4242 (W_EXITCODE 0 0) initForegroundStatus
    initForegroundStatus (Or.inl (by decide))

/-- C8 (fails on the code): for the sentinel status `executeStatus` writes two
lines, the no-process message on stderr and then an empty line on stdout; for
every other status it writes one. -/
theorem executeStatus_sentinel_writes_two_lines :
    executeStatus initForegroundStatus =
      [Effect.write OutStream.stderr
        "status: No foreground process executed by shell instance\n",
       Effect.write OutStream.stdout "\n"] ∧
    ∀ fs : ForegroundStatus,
      (output (executeStatus fs)).length = if fs.statusNum = -1 then 2 else 1 := by
  refine ⟨by decide, ?_⟩
  intro fs
  unfold executeStatus
  by_cases hs : fs.statusNum = -1
  · simp [hs, output, isOutput]
  · by_cases hi : fs.isSignal = 0 <;> simp [hs, hi, output, isOutput]

/-! ## Launching a command: claims -/

/-- C9: with the foreground-only flag set at dispatch, whatever the foreground
flag of the command, the parent side of `handleNonBuiltIn` returns after the
masked blocking `waitpid` on the child, prints no "background pid id" line and
leaves the background registry as it was. The flag the command is launched
with is nonzero exactly when the command's own flag or the foreground-only flag
is nonzero, so the override never turns a foreground command into a background
one. -/
theorem foreground_only_forces_foreground_wait (os : LaunchOS) (FOREGROUND_FLAG : Int)
    (v : ShellVars) (flag : Int) (command : CommandInfo)
    (hflag : FOREGROUND_FLAG ≠ 0) (hparent : os.fork ≠ -1 ∧ os.fork ≠ 0) :
    (mainNonBuiltIn os FOREGROUND_FLAG v).halt = none ∧
    (∃ rest, (mainNonBuiltIn os FOREGROUND_FLAG v).effects =
      [Effect.fork,
       Effect.sigprocmask MaskHow.SIG_BLOCK waitMask,
       Effect.waitpid os.fork WaitOption.WSTOPPED,
       Effect.sigprocmask MaskHow.SIG_UNBLOCK waitMask] ++ rest) ∧
    (∀ n, announceBackground n ∉ (mainNonBuiltIn os FOREGROUND_FLAG v).effects) ∧
    (mainNonBuiltIn os FOREGROUND_FLAG v).state.bp.array = v.bp.array ∧
    (mainNonBuiltIn os FOREGROUND_FLAG v).state.bp.size = v.bp.size ∧
    ((mainForegroundOverride flag command).isForeground ≠ 0 ↔
      (command.isForeground ≠ 0 ∨ flag ≠ 0)) := by
  have hfg : (mainForegroundOverride FOREGROUND_FLAG v.command).isForeground ≠ 0 := by
    simp [mainForegroundOverride, hflag]
  have hover : (mainForegroundOverride flag command).isForeground ≠ 0 ↔
      (command.isForeground ≠ 0 ∨ flag ≠ 0) := by
    unfold mainForegroundOverride
    by_cases hf : flag = 0 <;> simp [hf]
  obtain ⟨fs1, tail, hrun, htail⟩ := parentSide_foreground os
    { v with command := mainForegroundOverride FOREGROUND_FLAG v.command } hfg
  have hrun1 : mainNonBuiltIn os FOREGROUND_FLAG v =
      { state := { command := mainForegroundOverride FOREGROUND_FLAG v.command,
                   fs := fs1, bp := v.bp }
        effects := Effect.fork ::
          ([Effect.sigprocmask MaskHow.SIG_BLOCK waitMask,
            Effect.waitpid os.fork WaitOption.WSTOPPED,
            Effect.sigprocmask MaskHow.SIG_UNBLOCK waitMask] ++ tail)
        halt := none } := by
    unfold mainNonBuiltIn handleNonBuiltIn
    rw [if_neg hparent.1, if_neg hparent.2, hrun]
  rw [hrun1]
  refine ⟨rfl, ⟨tail, rfl⟩, ?_, rfl, rfl, hover⟩
  intro n
  have := htail n
  simp [announceBackground, this] at this ⊢
  exact this

/-- Witness for C9: `sleep 5 &` dispatched in foreground-only mode. -/
theorem foreground_only_forces_foreground_wait_witness :
    (1 : Int) ≠ 0 ∧
    ((mainNonBuiltIn (parentOS 500 (W_EXITCODE 0 0)) 1 sampleVars).halt = none ∧
    (∃ rest, (mainNonBuiltIn (parentOS 500 (W_EXITCODE 0 0)) 1 sampleVars).effects =
      [Effect.fork,
       Effect.sigprocmask MaskHow.SIG_BLOCK waitMask,
       Effect.waitpid (parentOS 500 (W_EXITCODE 0 0)).fork WaitOption.WSTOPPED,
       Effect.sigprocmask MaskHow.SIG_UNBLOCK waitMask] ++ rest) ∧
    (∀ n, announceBackground n ∉
      (mainNonBuiltIn (parentOS 500 (W_EXITCODE 0 0)) 1 sampleVars).effects) ∧
    (mainNonBuiltIn (parentOS 500 (W_EXITCODE 0 0)) 1 sampleVars).state.bp.array
      = sampleVars.bp.array ∧
    (mainNonBuiltIn (parentOS 500 (W_EXITCODE 0 0)) 1 sampleVars).state.bp.size
      = sampleVars.bp.size ∧
    ((mainForegroundOverride 1 sampleBackgroundCommand).isForeground ≠ 0 ↔
      (sampleBackgroundCommand.isForeground ≠ 0 ∨ (1 : Int) ≠ 0))) :=
  ⟨by decide,
   foreground_only_forces_foreground_wait (parentOS 500 (W_EXITCODE 0 0)) 1 sampleVars 1
    sampleBackgroundCommand (by decide) ⟨by decide, by decide⟩⟩

/-- For a command whose foreground flag is false, dispatched with the
foreground-only flag clear, after a successful fork and with a registry whose
count is below `NUM_BACKGROUND_PIDS` and which has a free slot, the parent side of
`handleNonBuiltIn` returns having done exactly two things, the fork and the
line "background pid id N" for the child's PID `N`: it makes no `waitpid`
call, stores `N` in the lowest-index free slot of the registry, raises the
count by one and leaves the `ForegroundStatus` as it was. -/
theorem background_launch_registers (os : LaunchOS) (FOREGROUND_FLAG : Int) (v : ShellVars)
    (hbg : v.command.isForeground = 0) (hflag : FOREGROUND_FLAG = 0) (hfork : 0 < os.fork)
    (hsize : v.bp.size < (NUM_BACKGROUND_PIDS : Int)) (hfree : ∃ i, v.bp.array i = -1) :
    (mainNonBuiltIn os FOREGROUND_FLAG v).halt = none ∧
    (mainNonBuiltIn os FOREGROUND_FLAG v).effects
      = [Effect.fork,
         Effect.write OutStream.stdout ("background pid id " ++ toString os.fork ++ "\n")] ∧
    (∀ p o, Effect.waitpid p o ∉ (mainNonBuiltIn os FOREGROUND_FLAG v).effects) ∧
    (mainNonBuiltIn os FOREGROUND_FLAG v).state.fs = v.fs ∧
    ∃ i, v.bp.array i = -1 ∧ (∀ j, j < i → v.bp.array j ≠ -1) ∧
      (mainNonBuiltIn os FOREGROUND_FLAG v).state.bp.array
        = Function.update v.bp.array i os.fork ∧
      (mainNonBuiltIn os FOREGROUND_FLAG v).state.bp.size = v.bp.size + 1 := by
  obtain ⟨i, he, hlow, hhalt, heff, harr, hsz⟩ :=
    addBackgroundProcess_below_capacity v.bp os.fork hsize hfree
  have h1 : os.fork ≠ -1 := by omega
  have h2 : os.fork ≠ 0 := by omega
  have hrun : mainNonBuiltIn os FOREGROUND_FLAG v =
      { state := { v with bp := (_addBackgroundProcess v.bp os.fork).state }
        effects := Effect.fork :: announceBackground os.fork ::
          (_addBackgroundProcess v.bp os.fork).effects
        halt := (_addBackgroundProcess v.bp os.fork).halt } := by
    subst hflag
    simp only [mainNonBuiltIn, mainForegroundOverride, handleNonBuiltIn, parentSide, if_neg h1,
      if_neg h2, hbg, ne_eq, not_true_eq_false, if_false]
  rw [hrun, heff, hhalt]
  refine ⟨rfl, rfl, ?_, rfl, i, he, hlow, harr, hsz⟩
  intro p o
  simp [announceBackground]

/-- Example of a background launch: `sleep 5 &` with three children
registered; the child's PID 500 goes to slot 3. -/
theorem background_launch_registers_witness :
    (mainNonBuiltIn (parentOS 500 0) 0 sampleVars).state.bp.array ⟨3, by decide⟩ = 500 ∧
    (mainNonBuiltIn (parentOS 500 0) 0 sampleVars).halt = none ∧
    (mainNonBuiltIn (parentOS 500 0) 0 sampleVars).effects
      = [Effect.fork,
         Effect.write OutStream.stdout
          ("background pid id " ++ toString (parentOS 500 0).fork ++ "\n")] ∧
    (∀ p o, Effect.waitpid p o ∉ (mainNonBuiltIn (parentOS 500 0) 0 sampleVars).effects) ∧
    (mainNonBuiltIn (parentOS 500 0) 0 sampleVars).state.fs = sampleVars.fs ∧
    ∃ i, sampleVars.bp.array i = -1 ∧ (∀ j, j < i → sampleVars.bp.array j ≠ -1) ∧
      (mainNonBuiltIn (parentOS 500 0) 0 sampleVars).state.bp.array
        = Function.update sampleVars.bp.array i (parentOS 500 0).fork ∧
      (mainNonBuiltIn (parentOS 500 0) 0 sampleVars).state.bp.size
        = sampleVars.bp.size + 1 :=
  ⟨by decide,
   background_launch_registers (parentOS 500 0) 0 sampleVars rfl rfl (by decide) (by decide)
    ⟨⟨3, by decide⟩, by decide⟩⟩

/-! ## Lemmas on the foreground wait -/

theorem executeStatus_isOutput (fs : ForegroundStatus) :
    ∀ e ∈ executeStatus fs, isOutput e = true := by
  intro e he
  unfold executeStatus at he
  split_ifs at he
  · simp only [List.mem_cons, List.mem_singleton, List.not_mem_nil, or_false] at he
    rcases he with h | h <;> subst h <;> rfl
  · simp only [List.mem_singleton] at he
    subst he; rfl
  · simp only [List.mem_singleton] at he
    subst he; rfl

theorem parentSide_foreground_output (os : LaunchOS) (v : ShellVars)
    (hfg : v.command.isForeground ≠ 0) :
    ∃ (fs1 : ForegroundStatus) (tail : List Effect),
      parentSide os v =
        { state := { command := v.command, fs := fs1, bp := v.bp }
          effects := [Effect.sigprocmask MaskHow.SIG_BLOCK waitMask,
            Effect.waitpid os.fork WaitOption.WSTOPPED,
            Effect.sigprocmask MaskHow.SIG_UNBLOCK waitMask] ++ tail
          halt := none } ∧
      (∀ e ∈ tail, isOutput e = true) ∧
      (os.wait.ret = -1 → fs1 = v.fs ∧ tail = [Effect.perror "waitpid"]) := by
  unfold parentSide
  simp only [hfg, ne_eq, not_false_eq_true, if_true]
  by_cases hw : os.wait.ret = -1
  · refine ⟨v.fs, [Effect.perror "waitpid"], ?_, ?_, ?_⟩
    · simp only [hw, not_true_eq_false, if_false]
    · intro e he; simp at he; subst he; rfl
    · intro _; exact ⟨rfl, rfl⟩
  · by_cases hsig : WIFSIGNALED (if os.wait.ret > 0 then os.wait.status else -5) = true
    · refine ⟨informStatus os.fork (if os.wait.ret > 0 then os.wait.status else -5) v.fs,
        executeStatus (informStatus os.fork
          (if os.wait.ret > 0 then os.wait.status else -5) v.fs), ?_, ?_, ?_⟩
      · simp only [hw, not_false_eq_true, if_true, hsig]
      · exact executeStatus_isOutput _
      · intro h; exact absurd h hw
    · refine ⟨informStatus os.fork (if os.wait.ret > 0 then os.wait.status else -5) v.fs,
        [], ?_, ?_, ?_⟩
      · simp only [hw, not_false_eq_true, if_true, hsig, List.append_nil]
        simp
      · intro e he; cases he
      · intro h; exact absurd h hw

theorem maskAfter_output (mask : Signal → Bool) (es : List Effect)
    (h : ∀ e ∈ es, isOutput e = true) : maskAfter mask es = mask := by
  induction es with
  | nil => rfl
  | cons e rest ih =>
    have he := h e (List.mem_cons_self _ _)
    have hstep : maskStep mask e = mask := by
      cases e <;> simp [isOutput] at he <;> rfl
    unfold maskAfter at ih ⊢
    rw [List.foldl_cons, hstep]
    exact ih (fun x hx => h x (List.mem_cons_of_mem _ hx))

/-! ## The foreground wait: claims -/

/-- C11: when the blocking `waitpid` of a foreground command fails (returns
`-1`), `handleNonBuiltIn` in the parent leaves the `ForegroundStatus` as it was,
reports the failure with `perror("waitpid")` and prints nothing else, so no
status line; it returns to the main loop. -/
theorem failed_wait_keeps_status (os : LaunchOS) (v : ShellVars)
    (hfg : v.command.isForeground ≠ 0) (hparent : os.fork ≠ -1 ∧ os.fork ≠ 0)
    (hfail : os.wait.ret = -1) :
    (handleNonBuiltIn os v).state.fs = v.fs ∧
    (handleNonBuiltIn os v).effects =
      [Effect.fork,
       Effect.sigprocmask MaskHow.SIG_BLOCK waitMask,
       Effect.waitpid os.fork WaitOption.WSTOPPED,
       Effect.sigprocmask MaskHow.SIG_UNBLOCK waitMask,
       Effect.perror "waitpid"] ∧
    output (handleNonBuiltIn os v).effects = [Effect.perror "waitpid"] ∧
    (handleNonBuiltIn os v).halt = none := by
  obtain ⟨fs1, tail, hrun, _, hf⟩ := parentSide_foreground_output os v hfg
  obtain ⟨h1, h2⟩ := hf hfail
  subst h1 h2
  unfold handleNonBuiltIn
  rw [if_neg hparent.1, if_neg hparent.2, hrun]
  exact ⟨rfl, rfl, rfl, rfl⟩

/-- Witness for C11: `wc < in.txt` with status (0, 2) recorded before it. -/
theorem failed_wait_keeps_status_witness :
    (handleNonBuiltIn (failedWaitOS 500) sampleForegroundVars).state.fs
      = { isSignal := 0, statusNum := 2 } ∧
    ((handleNonBuiltIn (failedWaitOS 500) sampleForegroundVars).state.fs
      = sampleForegroundVars.fs ∧
    (handleNonBuiltIn (failedWaitOS 500) sampleForegroundVars).effects =
      [Effect.fork,
       Effect.sigprocmask MaskHow.SIG_BLOCK waitMask,
       Effect.waitpid (failedWaitOS 500).fork WaitOption.WSTOPPED,
       Effect.sigprocmask MaskHow.SIG_UNBLOCK waitMask,
       Effect.perror "waitpid"] ∧
    output (handleNonBuiltIn (failedWaitOS 500) sampleForegroundVars).effects
      = [Effect.perror "waitpid"] ∧
    (handleNonBuiltIn (failedWaitOS 500) sampleForegroundVars).halt = none) :=
  ⟨by decide,
   failed_wait_keeps_status (failedWaitOS 500) sampleForegroundVars (by decide)
    ⟨by decide, by decide⟩ rfl⟩

/-- C12 (as stated, fails): with SIGINT blocked before a foreground launch, the
signal mask after the wait is not the mask before it: SIGINT has been
unblocked. -/
theorem wait_does_not_restore_mask :
    maskAfter sigintBlocked
      (handleNonBuiltIn (parentOS 500 (W_EXITCODE 0 0)) sampleForegroundVars).effects
      ≠ sigintBlocked := by
  intro h
  have h1 := congrFun h Signal.SIGINT
  revert h1
  decide

/-- C12 (amended): for every signal mask in force before a foreground launch
and every answer of the blocking wait, in the parent SIGCHLD, SIGINT and
SIGTSTP are blocked during the wait (on top of the mask before), and the mask
after the wait is the mask before with these three signals removed; it equals
the mask before exactly when none of the three was blocked before. -/
theorem wait_blocks_then_unblocks (os : LaunchOS) (v : ShellVars) (mask : Signal → Bool)
    (hfg : v.command.isForeground ≠ 0) (hparent : os.fork ≠ -1 ∧ os.fork ≠ 0) :
    maskAtWait mask (handleNonBuiltIn os v).effects
      = some (fun s => mask s || waitMask.contains s) ∧
    maskAfter mask (handleNonBuiltIn os v).effects
      = (fun s => mask s && !waitMask.contains s) ∧
    (maskAfter mask (handleNonBuiltIn os v).effects = mask ↔
      (mask Signal.SIGCHLD = false ∧ mask Signal.SIGINT = false ∧
        mask Signal.SIGTSTP = false)) := by
  obtain ⟨fs1, tail, hrun, hout, _⟩ := parentSide_foreground_output os v hfg
  have heff : (handleNonBuiltIn os v).effects =
      Effect.fork :: ([Effect.sigprocmask MaskHow.SIG_BLOCK waitMask,
        Effect.waitpid os.fork WaitOption.WSTOPPED,
        Effect.sigprocmask MaskHow.SIG_UNBLOCK waitMask] ++ tail) := by
    unfold handleNonBuiltIn
    rw [if_neg hparent.1, if_neg hparent.2, hrun]
  have hafter : maskAfter mask (handleNonBuiltIn os v).effects
      = (fun s => mask s && !waitMask.contains s) := by
    rw [heff]
    have : maskAfter mask (Effect.fork :: ([Effect.sigprocmask MaskHow.SIG_BLOCK waitMask,
        Effect.waitpid os.fork WaitOption.WSTOPPED,
        Effect.sigprocmask MaskHow.SIG_UNBLOCK waitMask] ++ tail))
        = maskAfter (applySigprocmask MaskHow.SIG_UNBLOCK waitMask
            (applySigprocmask MaskHow.SIG_BLOCK waitMask mask)) tail := rfl
    rw [this, maskAfter_output _ _ hout]
    funext s
    cases s <;> cases hm : mask _ <;> simp [applySigprocmask, waitMask, hm]
  refine ⟨?_, hafter, ?_⟩
  · rw [heff]; rfl
  · rw [hafter]
    constructor
    · intro h
      have h1 := congrFun h Signal.SIGCHLD
      have h2 := congrFun h Signal.SIGINT
      have h3 := congrFun h Signal.SIGTSTP
      simp [waitMask] at h1 h2 h3
      exact ⟨h1, h2, h3⟩
    · rintro ⟨h1, h2, h3⟩
      funext s
      cases s <;> simp [waitMask, h1, h2, h3]

/-- Witness for C12 (amended): a launch with no signal blocked before. -/
theorem wait_blocks_then_unblocks_witness :
    maskAtWait noneBlocked
      (handleNonBuiltIn (parentOS 500 (W_EXITCODE 0 0)) sampleForegroundVars).effects
      = some (fun s => noneBlocked s || waitMask.contains s) ∧
    maskAfter noneBlocked
      (handleNonBuiltIn (parentOS 500 (W_EXITCODE 0 0)) sampleForegroundVars).effects
      = (fun s => noneBlocked s && !waitMask.contains s) ∧
    (maskAfter noneBlocked
      (handleNonBuiltIn (parentOS 500 (W_EXITCODE 0 0)) sampleForegroundVars).effects
        = noneBlocked ↔
      (noneBlocked Signal.SIGCHLD = false ∧ noneBlocked Signal.SIGINT = false ∧
        noneBlocked Signal.SIGTSTP = false)) :=
  wait_blocks_then_unblocks (parentOS 500 (W_EXITCODE 0 0)) sampleForegroundVars
    noneBlocked (by decide) ⟨by decide, by decide⟩

/-! ## Signal profiles: claims -/

/-- C13: installing one profile and then another leaves, for SIGINT and
SIGTSTP, exactly the dispositions of the second, whatever the dispositions were
before: each of the three profiles sets both signals. After the
foreground-child profile then the background-child profile both signals are
ignored, as after the background profile alone; after the foreground-child
profile alone SIGTSTP is ignored and SIGINT has the default disposition. -/
theorem second_profile_wins (d d0 : Signal → Handler) (p1 p2 : Profile) :
    dispositionAfter (dispositionAfter d p1.register) p2.register Signal.SIGINT
      = dispositionAfter d0 p2.register Signal.SIGINT ∧
    dispositionAfter (dispositionAfter d p1.register) p2.register Signal.SIGTSTP
      = dispositionAfter d0 p2.register Signal.SIGTSTP ∧
    dispositionAfter (dispositionAfter d registerForegroundChildHandlers)
      registerBackgroundChildHandlers Signal.SIGINT = Handler.SIG_IGN ∧
    dispositionAfter (dispositionAfter d registerForegroundChildHandlers)
      registerBackgroundChildHandlers Signal.SIGTSTP = Handler.SIG_IGN ∧
    dispositionAfter d registerBackgroundChildHandlers Signal.SIGINT = Handler.SIG_IGN ∧
    dispositionAfter d registerBackgroundChildHandlers Signal.SIGTSTP = Handler.SIG_IGN ∧
    dispositionAfter d registerForegroundChildHandlers Signal.SIGTSTP = Handler.SIG_IGN ∧
    dispositionAfter d registerForegroundChildHandlers Signal.SIGINT = Handler.SIG_DFL ∧
    dispositionAfter d registerParentHandlers Signal.SIGINT = Handler.catchSIGINT ∧
    dispositionAfter d registerParentHandlers Signal.SIGTSTP = Handler.catchSIGTSTP := by
  refine ⟨?_, ?_, ?_, ?_, ?_, ?_, ?_, ?_, ?_, ?_⟩
  · cases p1 <;> cases p2 <;>
      simp [dispositionAfter, dispositionStep, Profile.register, registerParentHandlers,
        registerForegroundChildHandlers, registerBackgroundChildHandlers, Function.update]
  · cases p1 <;> cases p2 <;>
      simp [dispositionAfter, dispositionStep, Profile.register, registerParentHandlers,
        registerForegroundChildHandlers, registerBackgroundChildHandlers, Function.update]
  all_goals
    simp [dispositionAfter, dispositionStep, registerParentHandlers,
      registerForegroundChildHandlers, registerBackgroundChildHandlers, Function.update]

/-! ## Redirection in the child: claim -/

theorem redirectInput_ok (os : LaunchOS) (ci : CommandInfo)
    (h : os.openIn ≠ -1 ∧ os.dup2In ≠ -1) :
    redirectInput os ci =
      (redirectCalls (if ci.inRedirFile.length ≠ 0 then some ci.inRedirFile else none)
        OpenMode.readOnly os.openIn 0, none) := by
  unfold redirectInput redirectCalls
  by_cases hl : ci.inRedirFile.length ≠ 0
  · rw [if_pos hl, if_neg h.1, if_neg h.2, if_pos hl]
  · rw [if_neg hl, if_neg hl]

theorem redirectOutput_ok (os : LaunchOS) (ci : CommandInfo)
    (h : os.openOut ≠ -1 ∧ os.dup2Out ≠ -1) :
    redirectOutput os ci =
      (redirectCalls (if ci.outRedirFile.length ≠ 0 then some ci.outRedirFile else none)
        OpenMode.writeCreateTrunc os.openOut 1, none) := by
  unfold redirectOutput redirectCalls
  by_cases hl : ci.outRedirFile.length ≠ 0
  · rw [if_pos hl, if_neg h.1, if_neg h.2, if_pos hl]
  · rw [if_neg hl, if_neg hl]

theorem defaultRedirects_targets (ci : CommandInfo) :
    (if (defaultRedirects ci).inRedirFile.length ≠ 0
      then some (defaultRedirects ci).inRedirFile else none)
      = redirectTarget ci.inRedirFile ci.isForeground ∧
    (if (defaultRedirects ci).outRedirFile.length ≠ 0
      then some (defaultRedirects ci).outRedirFile else none)
      = redirectTarget ci.outRedirFile ci.isForeground := by
  have hnull : ("/dev/null" : String).length ≠ 0 := by decide
  unfold defaultRedirects redirectTarget
  by_cases h1 : ci.inRedirFile.length = 0 <;> by_cases h2 : ci.isForeground = 0 <;>
    by_cases h3 : ci.outRedirFile.length = 0 <;> simp [h1, h2, h3, hnull]

/-- C16: in the child, when every `open` and `dup2` succeeds, the calls made
between the signal registration and `execvp` are the redirection of standard
input followed by the redirection of standard output, each to the target the
claim names from that stream's own path and the foreground flag: the explicit
path when one is given, `/dev/null` for a background command without one, and
no `open` or `dup2` at all for a foreground command without one. -/
theorem child_redirects_each_stream (os : LaunchOS) (v : ShellVars)
    (hchild : os.fork = 0) (hin : os.openIn ≠ -1 ∧ os.dup2In ≠ -1)
    (hout : os.openOut ≠ -1 ∧ os.dup2Out ≠ -1) :
    ∃ rest, (handleNonBuiltIn os v).effects =
      Effect.fork ::
      (if v.command.isForeground ≠ 0 then registerForegroundChildHandlers
        else registerBackgroundChildHandlers) ++
      redirectCalls (redirectTarget v.command.inRedirFile v.command.isForeground)
        OpenMode.readOnly os.openIn 0 ++
      redirectCalls (redirectTarget v.command.outRedirFile v.command.isForeground)
        OpenMode.writeCreateTrunc os.openOut 1 ++
      Effect.execvp (argList v.command).head? (argList v.command) :: rest := by
  have h0 : os.fork ≠ -1 := by rw [hchild]; decide
  obtain ⟨t1, t2⟩ := defaultRedirects_targets v.command
  unfold handleNonBuiltIn childSide
  simp only [if_neg h0, hchild, if_true, redirectInput_ok os _ hin,
    redirectOutput_ok os _ hout, t1, t2]
  by_cases he : os.execFails = true
  · exact ⟨[Effect.perror ((argList v.command).head?.getD "")], by simp [he]⟩
  · exact ⟨[], by simp [he]⟩

/-- Witness for C16: the background command `sleep 5 &`, no path given. -/
theorem child_redirects_each_stream_witness :
    (handleNonBuiltIn childOS sampleVars).effects =
      [Effect.fork,
       Effect.sigaction Signal.SIGINT Handler.SIG_IGN,
       Effect.sigaction Signal.SIGTSTP Handler.SIG_IGN,
       Effect.openFile "/dev/null" OpenMode.readOnly,
       Effect.dup2 3 0, Effect.close 3,
       Effect.openFile "/dev/null" OpenMode.writeCreateTrunc,
       Effect.dup2 4 1, Effect.close 4,
       Effect.execvp (some "sleep") ["sleep", "5"]] ∧
    (handleNonBuiltIn childOS sampleForegroundVars).effects =
      [Effect.fork,
       Effect.sigaction Signal.SIGTSTP Handler.SIG_IGN,
       Effect.sigaction Signal.SIGINT Handler.SIG_DFL,
       Effect.openFile "in.txt" OpenMode.readOnly,
       Effect.dup2 3 0, Effect.close 3,
       Effect.execvp (some "wc") ["wc"]] ∧
    ∃ rest, (handleNonBuiltIn childOS sampleVars).effects =
      Effect.fork ::
      (if sampleVars.command.isForeground ≠ 0 then registerForegroundChildHandlers
        else registerBackgroundChildHandlers) ++
      redirectCalls
        (redirectTarget sampleVars.command.inRedirFile sampleVars.command.isForeground)
        OpenMode.readOnly childOS.openIn 0 ++
      redirectCalls
        (redirectTarget sampleVars.command.outRedirFile sampleVars.command.isForeground)
        OpenMode.writeCreateTrunc childOS.openOut 1 ++
      Effect.execvp (argList sampleVars.command).head? (argList sampleVars.command) :: rest :=
  ⟨by decide, by decide,
   child_redirects_each_stream childOS sampleVars rfl ⟨by decide, by decide⟩
    ⟨by decide, by decide⟩⟩

/-! ## The stop-signal handler: claim -/

/-- C17 (as stated, fails): when the flag goes from off to on, what
`catchSIGTSTP` prints is not just the line
"Entering foreground-only mode (& is now ignored)": an empty line comes
first. -/
theorem catchSIGTSTP_prints_blank_line_first :
    output (catchSIGTSTP 0).effects ≠
      [Effect.write OutStream.stdout
        "Entering foreground-only mode (& is now ignored)\n"] ∧
    output (catchSIGTSTP 1).effects ≠
      [Effect.write OutStream.stdout "Exiting foreground-only mode\n"] := by
  constructor <;> decide

/-- C17 (amended): `catchSIGTSTP` negates the flag and prints an empty line
followed by exactly the line "Entering foreground-only mode (& is now ignored)"
when the flag was off, or by exactly "Exiting foreground-only mode" when it was
on; two deliveries in a row give back the flag values 0 and 1. -/
theorem catchSIGTSTP_toggles (flag : Int) :
    catchSIGTSTP flag =
      (if flag = 0 then
        { flag := 1
          effects := [Effect.write OutStream.stdout "\n",
            Effect.write OutStream.stdout
              "Entering foreground-only mode (& is now ignored)\n"] }
      else
        { flag := 0
          effects := [Effect.write OutStream.stdout "\n",
            Effect.write OutStream.stdout "Exiting foreground-only mode\n"] }) ∧
    ((catchSIGTSTP flag).flag = 0 ↔ flag ≠ 0) ∧
    (catchSIGTSTP (catchSIGTSTP flag).flag).flag = (if flag = 0 then 0 else 1) ∧
    (catchSIGTSTP (catchSIGTSTP 0).flag).flag = 0 ∧
    (catchSIGTSTP (catchSIGTSTP 1).flag).flag = 1 := by
  refine ⟨?_, ?_, ?_, by decide, by decide⟩
  · unfold catchSIGTSTP
    by_cases h : flag = 0
    · rw [if_pos h, if_pos h]; decide
    · rw [if_neg h, if_neg h]; decide
  · unfold catchSIGTSTP
    by_cases h : flag = 0 <;> simp [h]
  · unfold catchSIGTSTP
    by_cases h : flag = 0 <;> simp [h]

/-! ## Input processing: claims -/

/-- C19 (fails on the code): on the input `a$b$`, which holds no `$$`,
`_expandVars` with PID 1234 gives `a$1234` where the claim gives the input
back: the flag set by the first `$` is still set at the second one, which then
overwrites the `b` with the PID. On `a$$b` both agree. -/
theorem expandVars_expands_separated_dollars :
    _expandVars "a$b$".toList 1234 = "a$1234".toList ∧
    expandSpec (toString (1234 : Int)).toList "a$b$".toList = "a$b$".toList ∧
    _expandVars "a$b$".toList 1234 ≠ expandSpec (toString (1234 : Int)).toList "a$b$".toList ∧
    _expandVars "a$$b".toList 1234 = expandSpec (toString (1234 : Int)).toList "a$$b".toList := by
  refine ⟨by decide, by decide, by decide, by decide⟩

/-! ## Lemmas on the argument flags -/

theorem setInactive_length (A : List Argument) (i : Nat) :
    (setInactive A i).length = A.length := by
  induction A generalizing i with
  | nil => rfl
  | cons a rest ih =>
    cases i with
    | zero => rfl
    | succ j => simp [setInactive, ih]

theorem offHead_length (A : List Argument) : (offHead A).length = A.length := by
  cases A <;> rfl

theorem markRedirects_offHead (R : List Argument) :
    markRedirects false (offHead R) = markRedirects true R := by
  cases R with
  | nil => rfl
  | cons b more => simp [offHead, markRedirects, offArg]

/-- C21: for every prior status and every wait status that is neither a normal
exit nor a signal termination, `informStatus` leaves both fields of the status
as they were; when the blocking wait of a foreground command reports the child
with such a status (a stopped child, which `WSTOPPED` lets it report),
`handleNonBuiltIn` in the parent returns with the `ForegroundStatus` of the
previous command and prints nothing. -/
theorem informStatus_keeps_status_otherwise (pid result : Int) (fs : ForegroundStatus)
    (os : LaunchOS) (v : ShellVars)
    (hexit : WIFEXITED result = false) (hsig : WIFSIGNALED result = false)
    (hfg : v.command.isForeground ≠ 0) (hparent : os.fork ≠ -1 ∧ os.fork ≠ 0)
    (hwait : os.wait.ret > 0 ∧ os.wait.status = result) :
    informStatus pid result fs = fs ∧
    (informStatus pid result fs).statusNum = fs.statusNum ∧
    (informStatus pid result fs).isSignal = fs.isSignal ∧
    (handleNonBuiltIn os v).state.fs = v.fs ∧
    output (handleNonBuiltIn os v).effects = [] ∧
    (handleNonBuiltIn os v).halt = none := by
  have hkeep : ∀ (p : Int) (s : ForegroundStatus), informStatus p result s = s := by
    intro p s
    unfold informStatus
    simp [hexit, hsig]
  have hret : os.wait.ret ≠ -1 := by omega
  have hrun : handleNonBuiltIn os v =
      { state := { v with fs := informStatus os.fork result v.fs }
        effects := [Effect.fork,
          Effect.sigprocmask MaskHow.SIG_BLOCK waitMask,
          Effect.waitpid os.fork WaitOption.WSTOPPED,
          Effect.sigprocmask MaskHow.SIG_UNBLOCK waitMask]
        halt := none } := by
    unfold handleNonBuiltIn parentSide
    rw [if_neg hparent.1, if_neg hparent.2]
    simp only [hfg, ne_eq, not_false_eq_true, if_true, hwait.1, hwait.2, hret, hsig,
      Bool.false_eq_true, if_false]
  rw [hrun, hkeep, hkeep]
  exact ⟨rfl, rfl, rfl, rfl, rfl, rfl⟩

/-- Witness for C21: `wc < in.txt` is stopped by signal 19 while the status
(0, 2) of the previous command is recorded. -/
theorem informStatus_keeps_status_otherwise_witness :
    (handleNonBuiltIn (parentOS 500 (W_STOPCODE 19)) sampleForegroundVars).state.fs
      = { isSignal := 0, statusNum := 2 } ∧
    (informStatus 500 (W_STOPCODE 19) sampleForegroundVars.fs = sampleForegroundVars.fs ∧
    (informStatus 500 (W_STOPCODE 19) sampleForegroundVars.fs).statusNum
      = sampleForegroundVars.fs.statusNum ∧
    (informStatus 500 (W_STOPCODE 19) sampleForegroundVars.fs).isSignal
      = sampleForegroundVars.fs.isSignal ∧
    (handleNonBuiltIn (parentOS 500 (W_STOPCODE 19)) sampleForegroundVars).state.fs
      = sampleForegroundVars.fs ∧
    output (handleNonBuiltIn (parentOS 500 (W_STOPCODE 19)) sampleForegroundVars).effects
      = [] ∧
    (handleNonBuiltIn (parentOS 500 (W_STOPCODE 19)) sampleForegroundVars).halt = none) :=
  ⟨by decide,
   informStatus_keeps_status_otherwise 500 (W_STOPCODE 19) sampleForegroundVars.fs
    (parentOS 500 (W_STOPCODE 19)) sampleForegroundVars (by decide) (by decide) (by decide)
    ⟨by decide, by decide⟩ ⟨by decide, rfl⟩⟩

/-! ## executeExit: claims -/

theorem exitStep_returning (bp : BackgroundProcesses) (k : Fin NUM_BACKGROUND_PIDS → Int)
    (w : Fin NUM_BACKGROUND_PIDS → Bool) (hw : ∀ i, w i = true) (acc : List Effect)
    (i : Fin NUM_BACKGROUND_PIDS) :
    exitStep bp k w { effects := acc, blocked := false } i
      = { effects := acc ++ exitCalls bp k i, blocked := false } := by
  unfold exitCalls exitStep
  by_cases h1 : bp.array i ≠ -1
  · by_cases h2 : k i ≠ 0 <;> simp [h1, h2, hw i]
  · simp [h1]

theorem exit_fold (bp : BackgroundProcesses) (k : Fin NUM_BACKGROUND_PIDS → Int)
    (w : Fin NUM_BACKGROUND_PIDS → Bool) (hw : ∀ i, w i = true)
    (l : List (Fin NUM_BACKGROUND_PIDS)) :
    ∀ acc : List Effect,
      l.foldl (exitStep bp k w) { effects := acc, blocked := false }
        = { effects := acc ++ l.flatMap (exitCalls bp k), blocked := false } := by
  induction l with
  | nil => intro acc; simp
  | cons i rest ih =>
    intro acc
    rw [List.foldl_cons, exitStep_returning bp k w hw, ih, List.flatMap_cons,
      List.append_assoc]

theorem exit_kills (bp : BackgroundProcesses) (k : Fin NUM_BACKGROUND_PIDS → Int)
    (l : List (Fin NUM_BACKGROUND_PIDS)) :
    (l.flatMap (exitCalls bp k)).filter isKill
      = (l.filter (fun i => bp.array i ≠ -1)).map
          (fun i => Effect.kill (bp.array i) Signal.SIGTERM) := by
  induction l with
  | nil => rfl
  | cons i rest ih =>
    rw [List.flatMap_cons, List.filter_append, ih]
    unfold exitCalls
    by_cases h1 : bp.array i ≠ -1
    · by_cases h2 : k i ≠ 0 <;> simp [h1, h2, isKill, List.filter_cons]
    · simp [h1, List.filter_cons]

theorem exit_errors (bp : BackgroundProcesses) (k : Fin NUM_BACKGROUND_PIDS → Int)
    (l : List (Fin NUM_BACKGROUND_PIDS)) :
    ((l.flatMap (exitCalls bp k)).filter isErrorReport).length
      = (l.filter (fun i => bp.array i ≠ -1 ∧ k i ≠ 0)).length := by
  induction l with
  | nil => rfl
  | cons i rest ih =>
    rw [List.flatMap_cons, List.filter_append, List.length_append, ih]
    unfold exitCalls
    by_cases h1 : bp.array i ≠ -1
    · by_cases h2 : k i ≠ 0
      · simp [h1, h2, isErrorReport, List.filter_cons]
        omega
      · simp [h1, h2, isErrorReport, List.filter_cons]
    · simp [h1, List.filter_cons]

/-- When every `wait(0)` returns, `executeExit` returns, its `kill` requests
are exactly one `kill(pid, SIGTERM)` per occupied slot in slot order, and the
number of `perror` reports is the number of occupied slots whose send
failed. -/
theorem executeExit_when_waits_return (bp : BackgroundProcesses)
    (k : Fin NUM_BACKGROUND_PIDS → Int) (w : Fin NUM_BACKGROUND_PIDS → Bool)
    (hw : ∀ i, w i = true) :
    (executeExit bp k w).blocked = false ∧
    (executeExit bp k w).effects.filter isKill
      = ((List.finRange NUM_BACKGROUND_PIDS).filter (fun i => bp.array i ≠ -1)).map
          (fun i => Effect.kill (bp.array i) Signal.SIGTERM) ∧
    ((executeExit bp k w).effects.filter isErrorReport).length
      = ((List.finRange NUM_BACKGROUND_PIDS).filter
          (fun i => bp.array i ≠ -1 ∧ k i ≠ 0)).length := by
  unfold executeExit
  rw [exit_fold bp k w hw, List.nil_append]
  exact ⟨rfl, exit_kills bp k _, exit_errors bp k _⟩

theorem executeExit_without_failure (bp : BackgroundProcesses)
    (k : Fin NUM_BACKGROUND_PIDS → Int) (w w0 : Fin NUM_BACKGROUND_PIDS → Bool)
    (hk : ∀ i, k i = 0) : executeExit bp k w = executeExit bp k w0 := by
  have hstep : exitStep bp k w = exitStep bp k w0 := by
    funext run i
    unfold exitStep
    simp [hk i]
  unfold executeExit
  rw [hstep]

set_option maxRecDepth 100000 in
/-- C14 (fails on the code): with three live entries, the send to the first
one failing and no child ending while the shell is in `wait(0)`, `executeExit`
makes one `kill`, reports the failure and stays in `wait(0)`: the PIDs of the
two remaining slots are never signalled. -/
theorem executeExit_failed_send_blocks_the_rest :
    executeExit sampleVars.bp firstKillFails waitsBlock =
      { effects := [Effect.kill 101 Signal.SIGTERM, Effect.perror "kill", Effect.wait]
        blocked := true } ∧
    Effect.kill 102 Signal.SIGTERM ∉
      (executeExit sampleVars.bp firstKillFails waitsBlock).effects ∧
    Effect.kill 103 Signal.SIGTERM ∉
      (executeExit sampleVars.bp firstKillFails waitsBlock).effects := by
  refine ⟨by decide, by decide, by decide⟩

set_option maxRecDepth 100000 in
/-- C15 (fails on the code): with three live entries and every `kill`
succeeding, `executeExit` sends the three signals and makes no `wait` call at
all, so no child is reaped; with the second send failing it makes a single
`wait(0)`, after the failure report. -/
theorem executeExit_does_not_reap (w : Fin NUM_BACKGROUND_PIDS → Bool) :
    executeExit sampleVars.bp allKillsSucceed w =
      { effects := [Effect.kill 101 Signal.SIGTERM, Effect.kill 102 Signal.SIGTERM,
          Effect.kill 103 Signal.SIGTERM]
        blocked := false } ∧
    Effect.wait ∉ (executeExit sampleVars.bp allKillsSucceed w).effects ∧
    executeExit sampleVars.bp secondKillFails waitsReturn =
      { effects := [Effect.kill 101 Signal.SIGTERM, Effect.kill 102 Signal.SIGTERM,
          Effect.perror "kill", Effect.wait, Effect.kill 103 Signal.SIGTERM]
        blocked := false } := by
  rw [executeExit_without_failure sampleVars.bp allKillsSucceed w waitsReturn (fun _ => rfl)]
  refine ⟨by decide, by decide, by decide⟩

/-! ## A background launch over a swept registry: claim -/

set_option maxRecDepth 100000 in
/-- C10 (fails on the code): the registry reached by 64 registrations and one
sweep that reaps every child has all 64 slots free. Launching the background
command `sleep 5 &` over it, with the foreground-only flag clear and a
successful fork, announces "background pid id 500" and then exits the shell
with status 1: the PID is not registered. -/
theorem background_launch_fatal_after_sweep :
    Reachable sweptRegistry ∧
    (∀ i, sweptRegistry.array i = -1) ∧
    sweptVars.command.isForeground = 0 ∧
    (mainNonBuiltIn (parentOS 500 0) 0 sweptVars).halt = some (Halt.exit 1) ∧
    (mainNonBuiltIn (parentOS 500 0) 0 sweptVars).effects =
      [Effect.fork,
       Effect.write OutStream.stdout "background pid id 500\n",
       Effect.write OutStream.stderr
        "Warning: 64 background processes already running\n"] ∧
    (∀ i, (mainNonBuiltIn (parentOS 500 0) 0 sweptVars).state.bp.array i = -1) := by
  refine ⟨Reachable.cleanup _ (reachable_addMany _ _ Reachable.init (by decide)),
    by decide, by decide, by decide, by decide, by decide⟩

/-! ## Lemmas on `_processBuffer` -/

theorem runsOf_single (buf : List Char) (hne : buf ≠ [])
    (hbuf : ∀ c ∈ buf, isspace c = false) : runsOf buf = [buf] := by
  unfold runsOf
  rw [List.splitOnP_eq_single]
  · cases buf with
    | nil => exact absurd rfl hne
    | cons a t => simp
  · intro x hx; simp [hbuf x hx]

theorem processLoop_overflow (w : List Char) :
    ∀ (rest : List Char) (prev : Option Char) (buf : List Char) (args : List Argument),
      (∀ c ∈ w, isspace c = false ∧ c ≠ '\n') → args.length < MAX_ARGS →
      buf.length ≤ INPUT_BUFFER_LEN + 1 → INPUT_BUFFER_LEN + 1 < buf.length + w.length →
      processLoop (w ++ rest) prev buf args = none := by
  induction w with
  | nil =>
    intro rest prev buf args _ _ h1 h2
    simp only [List.length_nil] at h2
    omega
  | cons c cs ih =>
    intro rest prev buf args hw hargs h1 h2
    have hc := hw c (List.mem_cons_self _ _)
    rw [List.cons_append]
    unfold processLoop
    rw [if_pos ⟨hargs, hc.2⟩]
    simp only [hc.1, Bool.not_false, if_true]
    by_cases hroom : buf.length < INPUT_BUFFER_LEN + 1
    · rw [if_pos hroom]
      apply ih rest (some c) (buf ++ [c]) args
        (fun x hx => hw x (List.mem_cons_of_mem _ hx)) hargs
      · simp only [List.length_append, List.length_singleton]; omega
      · simp only [List.length_append, List.length_singleton, List.length_cons] at h2 ⊢
        omega
    · rw [if_neg hroom]

theorem expandLoop_dollars (pidBuffer : List Char) (n : Nat) :
    ∀ (tail out : List Char),
      expandLoop pidBuffer ((List.replicate n ['$', '$']).flatten ++ tail) out 0
        = expandLoop pidBuffer tail (out ++ (List.replicate n pidBuffer).flatten) 0 := by
  induction n with
  | zero => intro tail out; simp
  | succ m ih =>
    intro tail out
    rw [List.replicate_succ, List.replicate_succ, List.flatten_cons, List.flatten_cons]
    simp only [List.cons_append, List.nil_append]
    rw [expandLoop]
    simp only [true_and, if_true]
    rw [expandLoop]
    simp only [ne_eq, one_ne_zero, not_false_eq_true, and_self, if_true]
    have hz : ¬ ((1 : Int) = 0) := by decide
    simp only [hz, false_and, if_false, List.dropLast_concat]
    rw [ih, List.append_assoc]

theorem takeWhile_before_newline (T rest : List Char) (hT : ∀ x ∈ T, x ≠ '\n') :
    (T ++ '\n' :: rest).takeWhile (fun c => c != '\n') = T := by
  induction T with
  | nil => simp
  | cons a t ih =>
    have ha : a ≠ '\n' := hT a (List.mem_cons_self _ _)
    rw [List.cons_append, List.takeWhile_cons]
    simp only [bne_iff_ne, ne_eq, ha, not_false_eq_true, if_true]
    rw [ih (fun x hx => hT x (List.mem_cons_of_mem _ hx))]

theorem mem_flatten_replicate {α : Type} (n : Nat) (l : List α) (x : α)
    (h : x ∈ (List.replicate n l).flatten) : x ∈ l := by
  obtain ⟨m, hm, hx⟩ := List.mem_flatten.mp h
  rw [(List.mem_replicate.mp hm).2] at hx
  exact hx

theorem length_flatten_replicate {α : Type} (n : Nat) (l : List α) :
    ((List.replicate n l).flatten).length = n * l.length := by
  induction n with
  | zero => simp
  | succ m ih =>
    rw [List.replicate_succ, List.flatten_cons, List.length_append, ih]
    rw [Nat.succ_mul]
    omega

theorem expandVars_dollars (pidBuffer : List Char) (n : Nat) :
    expandLoop pidBuffer ((List.replicate n ['$', '$']).flatten ++ ['\n']) [] 0
      = (List.replicate n pidBuffer).flatten ++ ['\n'] := by
  rw [expandLoop_dollars]
  simp [expandLoop]

theorem wordsOf_single_token (T : List Char) (hne : T ≠ [])
    (hT : ∀ x ∈ T, isspace x = false ∧ x ≠ '\n') : wordsOf (T ++ ['\n']) = [T] := by
  unfold wordsOf
  rw [takeWhile_before_newline T [] (fun x hx => (hT x hx).2)]
  exact runsOf_single T hne (fun x hx => (hT x hx).1)

theorem processBuffer_overflow (T : List Char) (ci : CommandInfo)
    (hT : ∀ x ∈ T, isspace x = false ∧ x ≠ '\n')
    (hlong : INPUT_BUFFER_LEN + 1 < T.length) :
    _processBuffer (T ++ ['\n']) ci = none := by
  have hloop : processLoop (T ++ ['\n']) none [] [] = none := by
    apply processLoop_overflow T ['\n'] none [] [] hT
    · decide
    · simp
    · simpa using hlong
  unfold _processBuffer
  rw [hloop]

/-! ## The argument buffer: claim -/

/-- C20 (fails on the code): the line of 513 `$$` fits the input buffer; with
PID 1234 its expansion is one token of 2052 characters, which the claim has
stored as the single argument. `_processBuffer` writes it into `argBuffer`,
an array of 2049 bytes, without a bound check: the write past the end of the
array is undefined behaviour, and no argument list is produced. -/
theorem processBuffer_overflows_argBuffer :
    dollarLine.length ≤ INPUT_BUFFER_LEN ∧
    _expandVars dollarLine 1234
      = (List.replicate 513 ['1', '2', '3', '4']).flatten ++ ['\n'] ∧
    wordsOf (_expandVars dollarLine 1234)
      = [(List.replicate 513 ['1', '2', '3', '4']).flatten] ∧
    ((List.replicate 513 ['1', '2', '3', '4']).flatten).length = 2052 ∧
    _processBuffer (_expandVars dollarLine 1234) emptyCommand = none ∧
    processInput dollarLine 1234 emptyCommand = none := by
  have hlen : ((List.replicate 513 ['1', '2', '3', '4']).flatten).length = 2052 := by
    rw [length_flatten_replicate]; rfl
  have hline : dollarLine.length ≤ INPUT_BUFFER_LEN := by
    unfold dollarLine INPUT_BUFFER_LEN
    rw [List.length_append, length_flatten_replicate]
    decide
  have hpid : (toString (1234 : Int)).toList = ['1', '2', '3', '4'] := by decide
  have hexp : _expandVars dollarLine 1234
      = (List.replicate 513 ['1', '2', '3', '4']).flatten ++ ['\n'] := by
    unfold _expandVars dollarLine
    rw [hpid]
    exact expandVars_dollars _ 513
  have hdigits : ∀ x ∈ (List.replicate 513 ['1', '2', '3', '4']).flatten,
      isspace x = false ∧ x ≠ '\n' := by
    intro x hx
    have hmem := mem_flatten_replicate 513 _ x hx
    simp only [List.mem_cons, List.mem_singleton, List.not_mem_nil, or_false] at hmem
    rcases hmem with h | h | h | h <;> subst h <;> decide
  have hne : (List.replicate 513 ['1', '2', '3', '4']).flatten ≠ [] := by
    intro h
    rw [h] at hlen
    cases hlen
  have hwords : wordsOf (_expandVars dollarLine 1234)
      = [(List.replicate 513 ['1', '2', '3', '4']).flatten] := by
    rw [hexp]
    exact wordsOf_single_token _ hne hdigits
  have hbuf : _processBuffer (_expandVars dollarLine 1234) emptyCommand = none := by
    rw [hexp]
    apply processBuffer_overflow _ _ hdigits
    rw [hlen]
    decide
  refine ⟨hline, hexp, hwords, hlen, hbuf, ?_⟩
  unfold processInput
  simp only [hbuf]

/-! ## Lemmas on `processInput` -/

end BasicShell
